import Mathlib

/-!
Shallow embedding of the safety-gated execution pipeline under
src/freeCAD: the command translator (AST-based static validator), the
safety rules and validator, the operation executor, and the rollback
manager.  Each Lean definition mirrors one Python function of the
source; machine-level concerns (wall-clock time, the Python object heap,
the FreeCAD host) are made explicit parameters.  Theorems C1..C10 settle
the frozen claims about this code.
-/

namespace FreeCADPipeline

/-- Substring test: Python `pat in s` (membership of one string in another). -/
def strContains (s pat : String) : Bool :=
  decide (pat.data <:+: s.data)

/-- Python str.lower, character by character (the source only lowercases
ASCII code and keyword text). -/
def strLower (s : String) : String :=
  ⟨s.data.map Char.toLower⟩

/-- Python list indexing `l[i]` with an Int index: negative indices count
from the end; an out-of-range index raises IndexError, modelled as `none`. -/
def pyIndex (len : Nat) (i : Int) : Option Nat :=
  let j : Int := if i < 0 then i + len else i
  if 0 ≤ j ∧ j < len then some j.toNat else none

/-! ## Python AST model

The source analyses candidate code with the `ast` module.  We embed the
node shapes its walkers inspect: calls (with the callee being a bare
name, an attribute access, or something else), module and from-imports,
attribute accesses, constants (string literals included; `constE s`
carries the `str` rendering of the constant value), and a catch-all
`otherE` for any further node kind with its child nodes.  `ast.walk`
yields a node and all of its descendants; the order (BFS in Python, DFS
here) is irrelevant to every check the source performs, which only ever
collects per-node messages. -/

inductive PyNode where
  | nameE (id : String)
  | attrE (value : PyNode) (attr : String)
  | callE (func : PyNode) (args : List PyNode)
  | constE (s : String)
  | importE (names : List String)
  | importFromE (module : Option String) (names : List String)
  | otherE (children : List PyNode)
deriving Repr

mutual

/-- All nodes of the tree: the node itself and every descendant
(the node set `ast.walk` yields). -/
def PyNode.walk : PyNode → List PyNode
  | .nameE i => [.nameE i]
  | .attrE v a => .attrE v a :: v.walk
  | .callE f args => .callE f args :: (f.walk ++ PyNode.walkList args)
  | .constE s => [.constE s]
  | .importE ns => [.importE ns]
  | .importFromE m ns => [.importFromE m ns]
  | .otherE cs => .otherE cs :: PyNode.walkList cs

def PyNode.walkList : List PyNode → List PyNode
  | [] => []
  | n :: ns => n.walk ++ PyNode.walkList ns

end

/-! ## CommandTranslator (src/freeCAD/core/command_translator.py) -/

namespace CommandTranslator

/-- ALLOWED_MODULES of CommandTranslator. -/
def ALLOWED_MODULES : List String :=
  ["FreeCAD", "Part", "Arch", "Draft", "Sketcher", "PartDesign",
   "Mesh", "MeshPart", "Drawing", "Spreadsheet"]

/-- FORBIDDEN_FUNCTIONS of CommandTranslator. -/
def FORBIDDEN_FUNCTIONS : List String :=
  ["eval", "exec", "compile", "__import__", "open", "input",
   "file", "execfile", "reload", "globals", "locals", "vars",
   "dir", "help", "quit", "exit", "copyright", "credits", "license"]

/-- FORBIDDEN_MODULES of CommandTranslator. -/
def FORBIDDEN_MODULES : List String :=
  ["os", "sys", "subprocess", "shutil", "socket", "urllib",
   "pickle", "shelve", "marshal", "imp", "importlib"]

/-- CommandTranslator._get_function_name: the callee name of a Call node
(a bare name gives its id, an attribute access its attribute, anything
else None). -/
def get_function_name : PyNode → Option String
  | .callE (.nameE i) _ => some i
  | .callE (.attrE _ a) _ => some a
  | _ => none

/-- The error messages one walked node contributes in
CommandTranslator._validate_code_ast: forbidden calls and forbidden
module imports. -/
def nodeErrors (n : PyNode) : List String :=
  match n with
  | .callE f args =>
      match get_function_name (.callE f args) with
      | some fn =>
          if FORBIDDEN_FUNCTIONS.contains fn then
            [s!"Forbidden function call: {fn}"]
          else []
      | none => []
  | .importE names =>
      names.filterMap fun m =>
        if FORBIDDEN_MODULES.contains m then
          some s!"Forbidden module import: {m}"
        else none
  | .importFromE (some m) _ =>
      if FORBIDDEN_MODULES.contains m then [s!"Forbidden module import: {m}"]
      else []
  | _ => []

/-- The warning messages one walked node contributes in
CommandTranslator._validate_code_ast: unrecognized (neither forbidden nor
allowed) module imports, and dunder attribute access. -/
def nodeWarnings (n : PyNode) : List String :=
  match n with
  | .importE names =>
      names.filterMap fun m =>
        if ¬ FORBIDDEN_MODULES.contains m ∧ ¬ ALLOWED_MODULES.contains m then
          some s!"Unrecognized module: {m}"
        else none
  | .importFromE (some m) _ =>
      if ¬ FORBIDDEN_MODULES.contains m ∧ ¬ ALLOWED_MODULES.contains m then
        [s!"Unrecognized module: {m}"]
      else []
  | .attrE _ a =>
      if a.startsWith "__" ∧ a.endsWith "__" then
        [s!"Access to dunder method: {a}"]
      else []
  | _ => []

/-- Result shape of CommandTranslator._validate_code_ast (the ast_tree it
returns on success is recovered from the input, so not duplicated here). -/
structure CodeValidation where
  valid : Bool
  errors : List String := []
  warnings : List String := []
deriving Repr, DecidableEq

/-- CommandTranslator._validate_code_ast.  The Python function first runs
`ast.parse` on the code text; parsing is external to this model, so the
function takes the parse result (`none` = SyntaxError; the exception text
inside the Python message is elided).  On a parse success it walks the
tree and collects forbidden-call and forbidden-import errors and
unknown-import and dunder warnings; errors make the code invalid,
warnings are only logged. -/
def validate_code_ast (parsed : Option PyNode) : CodeValidation :=
  match parsed with
  | none => { valid := false, errors := ["Syntax error in code"] }
  | some tree =>
      let errors := (tree.walk.map nodeErrors).flatten
      let warnings := (tree.walk.map nodeWarnings).flatten
      if errors ≠ [] then { valid := false, errors := errors }
      else { valid := true, warnings := warnings }

/-- One candidate operation's `code` value: the raw text together with
the result of `ast.parse` on it (`none` = the text does not parse). -/
structure SourceCode where
  text : String
  parsed : Option PyNode
deriving Repr

/-- A raw operation dict from the translator collaborator; `none` marks a
missing key. -/
structure RawOperation where
  code : Option SourceCode := none
  description : Option String := none
  type : Option String := none
  affected_objects : Option (List String) := none
deriving Repr

/-- A validated operation as assembled by
CommandTranslator._validate_operation: the original fields plus the
parsed syntax tree. -/
structure ValidatedOperation where
  code : String
  description : String
  type : String
  affected_objects : List String
  ast_tree : PyNode
deriving Repr

/-- The per-field messages of the required-field loop in
CommandTranslator._validate_operation, in source order. -/
def missingFieldErrors (op : RawOperation) : List String :=
  (if op.code.isNone then ["Operation missing required field: code"] else [])
  ++ (if op.description.isNone then ["Operation missing required field: description"] else [])
  ++ (if op.type.isNone then ["Operation missing required field: type"] else [])
  ++ (if op.affected_objects.isNone then ["Operation missing required field: affected_objects"] else [])

/-- CommandTranslator._validate_operation: reject on a missing required
field, then on AST validation failure, then on an invalid operation
type; otherwise return the validated operation with its tree. -/
def validate_operation (op : RawOperation) : Except (List String) ValidatedOperation :=
  match op.code, op.description, op.type, op.affected_objects with
  | some sc, some d, some t, some ao =>
      let cv := validate_code_ast sc.parsed
      if cv.valid = false then .error cv.errors
      else if ¬ ["create", "modify", "delete", "query"].contains t then
        .error [s!"Invalid operation type: {t}"]
      else
        match sc.parsed with
        | some tree => .ok ⟨sc.text, d, t, ao, tree⟩
        | none => .error ["Syntax error in code"]
  | _, _, _, _ => .error (missingFieldErrors op)

/-- A dict field of the candidate batch: missing, present with a
non-list value, or a list. -/
inductive PyField (α : Type) where
  | missing
  | wrongType
  | val (a : α)
deriving Repr, DecidableEq

/-- The candidate batch from the LLM collaborator, as
CommandTranslator.validate_and_parse reads it: an optional `error` key,
the `operations` and `imports` keys (whose presence and list shape the
structure check tests), and the remaining keys read with
dict.get defaults. -/
structure CommandResponse where
  error : Option String := none
  operations : PyField (List RawOperation)
  imports : PyField (List String)
  requires_confirmation : Bool := false
  estimated_complexity : Nat := 0

/-- CommandTranslator._validate_structure: the first structural error, if
any (the Python method appends one message and returns False at the
first failed check). -/
def validate_structure (resp : CommandResponse) : Option String :=
  match resp.operations, resp.imports with
  | .missing, _ => some "Missing required field: operations"
  | _, .missing => some "Missing required field: imports"
  | .wrongType, _ => some "'operations' must be a list"
  | _, .wrongType => some "'imports' must be a list"
  | .val _, .val _ => none

/-- Result shape of CommandTranslator.validate_and_parse.  The Python
dict carries only `valid`, `errors`, `operations` on the invalid paths
and no `errors` key on the valid path; absent keys take their
dict.get defaults here. -/
structure ValidatedCommand where
  valid : Bool
  errors : List String := []
  operations : List ValidatedOperation := []
  imports : List String := []
  requires_confirmation : Bool := false
  estimated_complexity : Nat := 0
deriving Repr

/-- CommandTranslator.validate_and_parse: reject a translator error or a
bad structure; validate each operation, keeping the valid ones and
collecting the errors of the invalid ones; a non-empty batch in which no
operation survived is invalid (with the collected errors, or the
fallback message when none were collected); otherwise the batch is
valid. -/
def validate_and_parse (resp : CommandResponse) : ValidatedCommand :=
  match resp.error with
  | some e => { valid := false, errors := [e] }
  | none =>
    match validate_structure resp with
    | some e => { valid := false, errors := [e] }
    | none =>
      match resp.operations, resp.imports with
      | .val rawOps, .val imps =>
          let results := rawOps.map validate_operation
          let validated := results.filterMap Except.toOption
          let errs := (results.map fun r =>
            match r with
            | .error es => es
            | .ok _ => []).flatten
          if validated.isEmpty ∧ ¬ rawOps.isEmpty then
            { valid := false
              errors := if errs.isEmpty then ["No valid operations found"] else errs }
          else
            { valid := true
              operations := validated
              imports := imps
              requires_confirmation := resp.requires_confirmation
              estimated_complexity := resp.estimated_complexity }
      | _, _ => { valid := false }

end CommandTranslator

/-! ## Safety rules (src/freeCAD/safety/rules.py) -/

/-- PermissionLevel enum: READ(1) < MODIFY(2) < CREATE(3) < DELETE(4). -/
inductive PermissionLevel where
  | READ
  | MODIFY
  | CREATE
  | DELETE
deriving Repr, DecidableEq

/-- The numeric value of a PermissionLevel member. -/
def PermissionLevel.value : PermissionLevel → Nat
  | .READ => 1
  | .MODIFY => 2
  | .CREATE => 3
  | .DELETE => 4

/-- The Python name of a PermissionLevel member. -/
def PermissionLevel.pname : PermissionLevel → String
  | .READ => "READ"
  | .MODIFY => "MODIFY"
  | .CREATE => "CREATE"
  | .DELETE => "DELETE"

/-- SafetyRule dataclass. -/
structure SafetyRule where
  name : String
  description : String
  rule_type : String
  severity : String
  enabled : Bool := true
deriving Repr, DecidableEq

/-- STRUCTURAL_ELEMENT_TYPES of SafetyRules. -/
def STRUCTURAL_ELEMENT_TYPES : List String :=
  ["Arch::Wall", "Arch::Structure", "Arch::Floor", "Arch::Building",
   "Arch::Foundation", "Arch::Rebar"]

/-- A SafetyRules instance: the built-in catalog (a dict name -> rule,
kept here as the associated list of its entries in insertion order), the
custom rules appended at runtime, and the numeric limits
(class attributes MAX_OPERATIONS_PER_BATCH = 50,
MAX_EXECUTION_TIME_SECONDS, MAX_DELETE_OBJECTS = 10 of the source,
carried per instance so the configured cap is explicit). -/
structure SafetyRules where
  rules : List SafetyRule
  custom_rules : List SafetyRule := []
  MAX_OPERATIONS_PER_BATCH : Nat := 50
  MAX_DELETE_OBJECTS : Nat := 10
deriving Repr, DecidableEq

namespace SafetyRules

/-- SafetyRules.get_rule: the built-in dict lookup, or else the first
custom rule of that name. -/
def get_rule (rs : SafetyRules) (rule_name : String) : Option SafetyRule :=
  match rs.rules.find? fun r => r.name = rule_name with
  | some r => some r
  | none => rs.custom_rules.find? fun r => r.name = rule_name

/-- SafetyRules.is_rule_enabled. -/
def is_rule_enabled (rs : SafetyRules) (rule_name : String) : Bool :=
  match rs.get_rule rule_name with
  | some r => r.enabled
  | none => false

/-- SafetyRules.get_permission_level_for_operation. -/
def get_permission_level_for_operation (operation_type : String) : PermissionLevel :=
  if operation_type = "query" then .READ
  else if operation_type = "modify" then .MODIFY
  else if operation_type = "create" then .CREATE
  else if operation_type = "delete" then .DELETE
  else .READ

/-- SafetyRules.check_operation_complexity: (is_valid, error message). -/
def check_operation_complexity (rs : SafetyRules) (num_operations : Nat) :
    Bool × Option String :=
  if ¬ rs.is_rule_enabled "limit_operation_complexity" then (true, none)
  else if num_operations > rs.MAX_OPERATIONS_PER_BATCH then
    let n := num_operations
    let m := rs.MAX_OPERATIONS_PER_BATCH
    (false, some s!"Too many operations: {n} (max: {m})")
  else (true, none)

/-- SafetyRules.check_mass_delete: (is_valid, error message). -/
def check_mass_delete (rs : SafetyRules) (num_objects : Nat) :
    Bool × Option String :=
  if ¬ rs.is_rule_enabled "no_mass_delete" then (true, none)
  else if num_objects > rs.MAX_DELETE_OBJECTS then
    let n := num_objects
    let m := rs.MAX_DELETE_OBJECTS
    (false, some s!"Mass delete blocked: {n} objects (max: {m}). Use explicit confirmation flag.")
  else (true, none)

/-- SafetyRules._initialize_rules together with SafetyRules.__init__:
the built-in catalog in dict insertion order, no custom rules, the
class-attribute limits.  All rules are enabled except
no_floating_objects, which strict mode enables.  The f-string
descriptions are written at the default limits. -/
def default_rules (strict : Bool) : SafetyRules :=
  { rules := [
      ⟨"no_delete_load_bearing", "Prevent deletion of load-bearing structural elements",
        "structural", "error", true⟩,
      ⟨"no_break_dependencies", "Prevent breaking parent-child dependencies",
        "structural", "error", true⟩,
      ⟨"no_floating_objects", "Prevent creating objects with no structural support",
        "structural", "warning", strict⟩,
      ⟨"require_delete_confirmation", "Require explicit confirmation for delete operations",
        "data", "error", true⟩,
      ⟨"maintain_version_history", "Maintain operation history for rollback",
        "data", "warning", true⟩,
      ⟨"validate_file_integrity", "Validate file integrity before/after operations",
        "data", "error", true⟩,
      ⟨"no_mass_delete", "Block deletion of more than 10 objects",
        "data", "error", true⟩,
      ⟨"limit_operation_complexity", "Limit to 50 operations per batch",
        "operational", "error", true⟩,
      ⟨"timeout_protection", "Maximum execution time: 30.0s",
        "operational", "error", true⟩,
      ⟨"rollback_capability", "Ensure all operations can be rolled back",
        "operational", "error", true⟩,
      ⟨"require_permission_elevation", "Require explicit permission for destructive operations",
        "permission", "error", true⟩,
      ⟨"audit_all_operations", "Log all operations for audit trail",
        "permission", "warning", true⟩] }

end SafetyRules

/-! ## Document host view

The validator reads the document through FreeCADFileParser
(src/freeCAD/core/file_parser.py): is_loaded, and get_objects with each
object's Name, TypeId and OutList (the source reads only the Name of
each OutList member, so the dependency list is kept as names). -/

/-- One live document object as the pipeline reads it. -/
structure DocObject where
  Name : String
  TypeId : String
  OutList : List String := []
deriving Repr, DecidableEq

/-- A loaded document: its objects in order. -/
structure Doc where
  objects : List DocObject
deriving Repr, DecidableEq

/-- FreeCADFileParser state: the loaded document and its path
(document = none means no document loaded; is_loaded tests exactly
this). -/
structure FileParserState where
  document : Option Doc := none
  file_path : Option String := none
deriving Repr, DecidableEq

/-- FreeCADFileParser.is_loaded. -/
def FileParserState.is_loaded (fp : FileParserState) : Bool :=
  fp.document.isSome

/-- FreeCADFileParser.get_objects: the objects of the loaded document,
or the empty list when none is loaded. -/
def FileParserState.get_objects (fp : FileParserState) : List DocObject :=
  match fp.document with
  | some d => d.objects
  | none => []

/-- FreeCADFileParser.close_document: clears the document, the path and
the captured state. -/
def FileParserState.close_document (_fp : FileParserState) : FileParserState :=
  { document := none, file_path := none }

/-! ## SafetyValidator (src/freeCAD/safety/validator.py) -/

open CommandTranslator (ValidatedOperation ValidatedCommand)

/-- ValidationViolation. -/
structure ValidationViolation where
  rule_name : String
  severity : String
  message : String
  blocked : Bool := true
deriving Repr, DecidableEq

namespace SafetyValidator

/-- SafetyValidator._is_deleting_structural_elements: the code string
mentions a structural element type identifier, or mentions a
removal-style call (removeobject or delete, lowercased) together with a
structural keyword. -/
def is_deleting_structural_elements (code : String) : Bool :=
  if STRUCTURAL_ELEMENT_TYPES.any fun t => strContains code t then true
  else
    let structural_keywords := ["wall", "column", "beam", "foundation", "structural"]
    let code_lower := strLower code
    if strContains code_lower "removeobject" ∨ strContains code_lower "delete" then
      structural_keywords.any fun k => strContains code_lower k
    else false

/-- The string-literal deletion targets of removeObject/delete attribute
calls in a tree, as the ast-walking loop of
SafetyValidator._analyze_delete_operation collects them (a first
argument that is a constant contributes its str rendering; Python walks
in BFS order, this walk in DFS order — only the collected set matters to
the callers). -/
def extractDeleteTargets (tree : PyNode) : List String :=
  tree.walk.filterMap fun n =>
    match n with
    | .callE (.attrE _ a) args =>
        if a = "removeObject" ∨ a = "delete" then
          match args with
          | .constE s :: _ => some s
          | _ => none
        else none
    | _ => none

/-- SafetyValidator._analyze_delete_operation: the declared
affected_objects when present (and not the placeholder list
consisting of the one entry all_walls), otherwise the targets parsed
from the code (the operation carries its tree — `ast.parse` on the code
of a validated operation is the tree stored alongside it), or the
placeholder unknown when nothing was found. -/
def analyze_delete_operation (op : ValidatedOperation) : List String :=
  let affected := op.affected_objects
  if ¬ affected.isEmpty ∧ affected ≠ ["all_walls"] then affected
  else
    let identifiers := extractDeleteTargets op.ast_tree
    if identifiers.isEmpty then ["unknown"] else identifiers

/-- The violations SafetyValidator._check_operation_complexity appends. -/
def checkOperationComplexity (rs : SafetyRules) (operations : List ValidatedOperation) :
    List ValidationViolation :=
  if ¬ rs.is_rule_enabled "limit_operation_complexity" then []
  else
    match rs.check_operation_complexity operations.length with
    | (false, some msg) => [⟨"limit_operation_complexity", "error", msg, true⟩]
    | _ => []

/-- The violations SafetyValidator._check_permissions appends: one per
operation whose required level exceeds the current level. -/
def checkPermissions (rs : SafetyRules) (current : PermissionLevel)
    (operations : List ValidatedOperation) : List ValidationViolation :=
  if ¬ rs.is_rule_enabled "require_permission_elevation" then []
  else
    operations.filterMap fun op =>
      let required := SafetyRules.get_permission_level_for_operation op.type
      if required.value > current.value then
        let d := op.description
        let r := required.pname
        let c := current.pname
        some ⟨"require_permission_elevation", "error",
          s!"Operation {d} requires {r} permission, but current level is {c}", true⟩
      else none

/-- The violations SafetyValidator._check_data_safety appends: the
delete-confirmation violation when the rule is enabled and the call is
unconfirmed, and the mass-delete violation when the summed
affected-object count of the delete operations is positive, fails
check_mass_delete, and the call is unconfirmed. -/
def checkDataSafety (rs : SafetyRules) (operations : List ValidatedOperation)
    (confirmed : Bool) : List ValidationViolation :=
  let delete_ops := operations.filter fun op => op.type = "delete"
  if delete_ops.isEmpty then []
  else
    let confViolations :=
      if rs.is_rule_enabled "require_delete_confirmation" ∧ ¬ confirmed then
        let n := delete_ops.length
        [⟨"require_delete_confirmation", "error",
          s!"{n} delete operation(s) require explicit confirmation. Set confirmed=True to proceed.",
          true⟩]
      else []
    let total_affected := (delete_ops.map fun op => op.affected_objects.length).sum
    let massViolations :=
      if total_affected > 0 then
        match rs.check_mass_delete total_affected with
        | (false, some msg) =>
            if ¬ confirmed then [⟨"no_mass_delete", "error", msg, true⟩] else []
        | _ => []
      else []
    confViolations ++ massViolations

/-- The violations SafetyValidator._check_load_bearing_deletion appends:
for each delete operation with a non-empty inferred target list whose
code trips the structural heuristic, one blocking violation (the inner
loop breaks after the first append). -/
def checkLoadBearingDeletion (operations : List ValidatedOperation) :
    List ValidationViolation :=
  (operations.filter fun op => op.type = "delete").filterMap fun op =>
    if ¬ (analyze_delete_operation op).isEmpty ∧
        is_deleting_structural_elements op.code then
      let d := op.description
      some ⟨"no_delete_load_bearing", "error",
        s!"Operation attempts to delete load-bearing structural elements. This is blocked for safety. Description: {d}",
        true⟩
    else none

/-- The non-blocking warnings SafetyValidator._check_dependency_violations
appends: for each inferred deletion target of a delete operation, the
live objects whose OutList names it (at most five shown in the
message). -/
def checkDependencyViolations (fp : FileParserState)
    (operations : List ValidatedOperation) : List ValidationViolation :=
  let delete_ops := operations.filter fun op => op.type = "delete"
  if delete_ops.isEmpty then []
  else
    let objects := fp.get_objects
    let dependencies := (objects.filter fun o => ¬ o.OutList.isEmpty).map
      fun o => (o.Name, o.OutList)
    delete_ops.flatMap fun op =>
      (analyze_delete_operation op).filterMap fun obj_name =>
        let dependents := (dependencies.filter fun p => p.2.contains obj_name).map
          Prod.fst
        if ¬ dependents.isEmpty then
          let names := String.intercalate ", " (dependents.take 5)
          some ⟨"no_break_dependencies", "warning",
            s!"Deleting {obj_name} may break dependencies. Objects that depend on it: {names}",
            false⟩
        else none

/-- SafetyValidator._check_structural_safety: the load-bearing check and
the dependency check, each gated on its rule (the redundant inner
is_loaded guard of the method is the same test its caller makes). -/
def checkStructuralSafety (rs : SafetyRules) (fp : FileParserState)
    (operations : List ValidatedOperation) : List ValidationViolation :=
  (if rs.is_rule_enabled "no_delete_load_bearing" then
    checkLoadBearingDeletion operations
  else [])
  ++ (if rs.is_rule_enabled "no_break_dependencies" then
    checkDependencyViolations fp operations
  else [])

/-- Result shape of SafetyValidator.validate_command (the invalid-command
early return carries only safe and violations; the absent keys take
their defaults here). -/
structure ValidationResult where
  safe : Bool
  violations : List ValidationViolation := []
  warnings : List ValidationViolation := []
  requires_confirmation : Bool := false
deriving Repr, DecidableEq

/-- SafetyValidator.validate_command: an invalid command is rejected
with one synthetic violation; otherwise the complexity, permission,
data-safety and (when a document is loaded) structural-safety checks
each append violations, which are then split into blocking violations
and warnings; the command is safe exactly when no blocking violation
was appended. -/
def validate_command (rs : SafetyRules) (fp : FileParserState)
    (current : PermissionLevel) (cmd : ValidatedCommand) (confirmed : Bool) :
    ValidationResult :=
  if ¬ cmd.valid then
    { safe := false
      violations := [⟨"invalid_command", "error", "Command is not valid", true⟩] }
  else
    let operations := cmd.operations
    let violations :=
      checkOperationComplexity rs operations
      ++ checkPermissions rs current operations
      ++ checkDataSafety rs operations confirmed
      ++ (if fp.is_loaded then checkStructuralSafety rs fp operations else [])
    let blocking := violations.filter fun v => v.blocked
    let warnings := violations.filter fun v => ¬ v.blocked
    { safe := blocking.isEmpty
      violations := blocking
      warnings := warnings
      requires_confirmation := cmd.requires_confirmation && !confirmed }

/-- SafetyValidator.elevate_permission: a one-way ratchet on the current
permission level (a strictly higher request replaces the level, any
other request is logged and ignored). -/
def elevate_permission (current new_permission : PermissionLevel) : PermissionLevel :=
  if new_permission.value > current.value then new_permission else current

end SafetyValidator

/-! ## OperationExecutor (src/freeCAD/core/executor.py)

Running one operation means `exec(code, namespace)` against the live
FreeCAD document inside the restricted namespace, and takes wall-clock
time; both are external to this model, so the executor is parametrised
by an OpSem: `run code doc` gives the raised exception text (none =
success), the document after the attempt (an exception may leave partial
mutations behind), and the created-object names the namespace scan
reports; `duration code` is the wall-clock time the attempt consumes;
`recompute` is the document-host recompute primitive.  `time.time()`
elapsed readings become the running sum of durations of the attempted
operations. -/

/-- The external behaviour of executing candidate code, see the section
comment. -/
structure OpSem where
  run : String → Doc → Option String × Doc × List String
  duration : String → Nat
  recompute : Doc → Doc

namespace OperationExecutor

/-- The ExecutionResult a single operation gets in
OperationExecutor._execute_single_operation (its data keys description
and created_objects are fields here; the type key repeats the
operation's type). -/
structure OpResult where
  success : Bool
  message : String
  error : Option String := none
  description : String := ""
  created_objects : List String := []
deriving Repr, DecidableEq

/-- OperationExecutor._execute_single_operation: run the code in the
restricted namespace; a raised exception is caught and becomes this
operation's failure result. -/
def execute_single_operation (sem : OpSem) (operation : CommandTranslator.ValidatedOperation)
    (doc : Doc) : OpResult × Doc :=
  match sem.run operation.code doc with
  | (none, doc2, created) =>
      let d := operation.description
      ({ success := true, message := s!"Operation completed: {d}",
         description := d, created_objects := created }, doc2)
  | (some e, doc2, _) =>
      let d := operation.description
      ({ success := false, message := s!"Operation failed: {d}",
         error := some e, description := d }, doc2)

/-- How the execution loop of OperationExecutor.execute_operations ends:
all operations attempted (with their results, the success count, the
final document and the elapsed time), or the between-operations timeout
check raised (with the success count so far, the elapsed reading and the
document as mutated by the already-attempted operations). -/
inductive LiveOutcome where
  | completed (results : List OpResult) (executed_count : Nat) (doc : Doc) (elapsed : Nat)
  | timedOut (executed_count : Nat) (elapsed : Nat) (doc : Doc)
deriving Repr, DecidableEq

/-- The for-loop of OperationExecutor.execute_operations: before each
operation compare the elapsed time against the maximum and raise the
timeout; otherwise attempt the operation, record its result, and count
it when it succeeded. -/
def runLive (sem : OpSem) (maxT : Nat) :
    List CommandTranslator.ValidatedOperation → Nat → Nat → Doc → LiveOutcome
  | [], elapsed, cnt, doc => .completed [] cnt doc elapsed
  | op :: rest, elapsed, cnt, doc =>
    if elapsed > maxT then .timedOut cnt elapsed doc
    else
      let step := execute_single_operation sem op doc
      match runLive sem maxT rest (elapsed + sem.duration op.code)
          (if step.1.success then cnt + 1 else cnt) step.2 with
      | .completed rs c d e => .completed (step.1 :: rs) c d e
      | .timedOut c e d => .timedOut c e d

/-- The data dict of a batch ExecutionResult; absent keys are none. -/
structure ExecData where
  executed_count : Option Nat := none
  total_count : Option Nat := none
  execution_time : Option Nat := none
  results : Option (List OpResult) := none
  operations_plan : Option (List String) := none
  estimated_complexity : Option Nat := none
  requires_confirmation : Option Bool := none
deriving Repr, DecidableEq

/-- ExecutionResult (the timestamp the constructor records is external
clock reading and is omitted). -/
structure ExecutionResult where
  success : Bool
  message : String
  data : ExecData := {}
  error : Option String := none
deriving Repr, DecidableEq

/-- OperationExecutor._dry_run_execution: the numbered plan, the declared
complexity and the confirmation requirement; always a success. -/
def dry_run_execution (cmd : CommandTranslator.ValidatedCommand) : ExecutionResult :=
  let operations := cmd.operations
  let summary := operations.enum.map fun p =>
    let i := p.1 + 1
    let d := p.2.description
    let t := p.2.type
    s!"{i}. {d} (type: {t})"
  let n := operations.length
  { success := true
    message := s!"Dry run: {n} operation(s) would be executed"
    data := { operations_plan := some summary
              estimated_complexity := some cmd.estimated_complexity
              requires_confirmation := some cmd.requires_confirmation } }

/-- OperationExecutor.execute_operations: refuse an invalid command, a
missing document, and an empty operation list; a dry run only produces
the plan; a live run loops over the operations under the timeout check,
recomputes the document once when at least one operation succeeded, and
classifies the outcome (all succeeded, partial, none, or timeout, the
last preserving the executed count and the document effects of the
already-attempted operations).  The audit-history append of the source
(_log_execution) records what is already in the returned result and is
omitted.  Returns the result and the file-parser state after the call. -/
def execute_operations (sem : OpSem) (maxT : Nat) (fp : FileParserState)
    (cmd : CommandTranslator.ValidatedCommand) (dry_run : Bool) :
    ExecutionResult × FileParserState :=
  if ¬ cmd.valid then
    ({ success := false, message := "Cannot execute invalid command",
       error := some "Command validation failed" }, fp)
  else
    match fp.document with
    | none =>
        ({ success := false, message := "No FreeCAD document loaded",
           error := some "Document not loaded" }, fp)
    | some doc =>
        let operations := cmd.operations
        if operations.isEmpty then
          ({ success := false, message := "No operations to execute",
             error := some "Empty operations list" }, fp)
        else if dry_run then (dry_run_execution cmd, fp)
        else
          match runLive sem maxT operations 0 0 doc with
          | .completed results executed_count doc2 elapsed =>
              let doc3 := if executed_count > 0 then sem.recompute doc2 else doc2
              let all_success := results.all fun r => r.success
              let total := operations.length
              let message :=
                if all_success then
                  let c := executed_count
                  let e := elapsed
                  s!"Successfully executed {c} operation(s) in {e}s"
                else if executed_count > 0 then
                  let c := executed_count
                  let e := elapsed
                  s!"Partially executed {c}/{total} operation(s) in {e}s"
                else "Failed to execute operations"
              ({ success := all_success
                 message := message
                 data := { executed_count := some executed_count
                           total_count := some total
                           execution_time := some elapsed
                           results := some results } },
               { fp with document := some doc3 })
          | .timedOut executed_count elapsed doc2 =>
              let c := executed_count
              let e := elapsed
              ({ success := false
                 message := s!"Execution timeout after {c} operations"
                 error := some s!"Execution timeout after {e}s (max: {maxT}s)"
                 data := { executed_count := some executed_count } },
               { fp with document := some doc2 })

end OperationExecutor

/-! ## RollbackManager (src/freeCAD/safety/rollback.py)

Snapshot storage on disk and FreeCADFileParser.load_file are external:
the parameter `store` maps a snapshot file path to the document a
successful load of it yields, or none when the load fails (load_file
returning False and load_file raising land in the same observable
state: the except clause returns False after the current document was
already closed). -/

/-- Snapshot dataclass (the metadata dict object_count entry is kept;
the object-type histogram and originating path do not feed any
behaviour modelled here). -/
structure Snapshot where
  timestamp : Nat
  description : String
  file_path : String
  operation_count : Nat
  object_count : Nat := 0
deriving Repr, DecidableEq

namespace RollbackManager

/-- RollbackManager state: the retained snapshot list and the file
parser it owns. -/
structure RollbackState where
  snapshots : List Snapshot
  fp : FileParserState
deriving Repr, DecidableEq

/-- Python list read the rollback performs: `snapshots[i]` with an Int
index. -/
def pyGet (l : List Snapshot) (i : Int) : Option Snapshot :=
  (pyIndex l.length i).bind fun j => l.get? j

/-- RollbackManager.rollback_to_snapshot: fail on an empty snapshot
list; an out-of-range index raises IndexError, caught to a failure with
nothing touched; otherwise close the current document (when loaded),
load the chosen snapshot, and on a successful load truncate the
retained list past the restored snapshot when the index is
non-negative; a failed load returns False with the snapshot list kept
(but the document already closed). -/
def rollback_to_snapshot (store : String → Option Doc) (st : RollbackState)
    (snapshot_index : Int) : Bool × RollbackState :=
  if st.snapshots.isEmpty then (false, st)
  else
    match pyGet st.snapshots snapshot_index with
    | none => (false, st)
    | some snap =>
        let fp1 := if st.fp.is_loaded then st.fp.close_document else st.fp
        match store snap.file_path with
        | some d =>
            let fp2 : FileParserState :=
              { document := some d, file_path := some snap.file_path }
            let snapshots2 :=
              if 0 ≤ snapshot_index then
                st.snapshots.take (snapshot_index.toNat + 1)
              else st.snapshots
            (true, { snapshots := snapshots2, fp := fp2 })
        | none => (false, { snapshots := st.snapshots, fp := fp1 })

/-- RollbackManager.rollback_last_operation: restore the second-most
recent snapshot, requiring at least two. -/
def rollback_last_operation (store : String → Option Doc) (st : RollbackState) :
    Bool × RollbackState :=
  if st.snapshots.length < 2 then (false, st)
  else rollback_to_snapshot store st (-2)

end RollbackManager

/-! ## Theorems settling the claims -/

namespace SafetyValidator

/-- The trace of current permission levels over a sequence of
elevate_permission calls on one validator, the initial level included. -/
def permTrace (start : PermissionLevel) : List PermissionLevel → List PermissionLevel
  | [] => [start]
  | r :: rs => start :: permTrace (elevate_permission start r) rs

theorem elevate_permission_value_le (current new_permission : PermissionLevel) :
    current.value ≤ (elevate_permission current new_permission).value := by
  unfold elevate_permission
  split
  · omega
  · exact le_rfl

theorem permTrace_cons_head (s : PermissionLevel) (l : List PermissionLevel) :
    ∃ t, permTrace s l = s :: t := by
  cases l <;> exact ⟨_, rfl⟩

/-- C3: over every sequence of elevate_permission calls the current
permission level is non-decreasing; a strictly higher request replaces
the level, a lower-or-equal request leaves it unchanged (the call is a
no-op, without an error path). -/
theorem C3_elevate_permission_monotone (start current new_permission : PermissionLevel)
    (requests : List PermissionLevel) :
    (permTrace start requests).Chain' (fun a b => a.value ≤ b.value)
    ∧ (new_permission.value > current.value →
        elevate_permission current new_permission = new_permission)
    ∧ (new_permission.value ≤ current.value →
        elevate_permission current new_permission = current) := by
  refine ⟨?_, ?_, ?_⟩
  · induction requests generalizing start with
    | nil => simp [permTrace]
    | cons r rs ih =>
        have h := ih (elevate_permission start r)
        obtain ⟨t, ht⟩ := permTrace_cons_head (elevate_permission start r) rs
        rw [permTrace, ht]
        rw [ht] at h
        exact List.Chain'.cons (elevate_permission_value_le start r) h
  · intro h
    unfold elevate_permission
    simp [h]
  · intro h
    unfold elevate_permission
    have : ¬ new_permission.value > current.value := by omega
    simp [this]

end SafetyValidator

/-! ### Concrete instances used by witnesses and counterexamples -/

namespace Fixtures

/-- A trivial external semantics: every operation succeeds instantly and
leaves the document unchanged. -/
def semTriv : OpSem :=
  { run := fun _ d => (none, d, [])
    duration := fun _ => 0
    recompute := id }

/-- A file parser with no document loaded. -/
def fpNone : FileParserState := {}

/-- A file parser with an empty document loaded. -/
def fpEmptyDoc : FileParserState := { document := some ⟨[]⟩ }

/-- A candidate batch with an empty operations list and an empty imports
list. -/
def emptyResp : CommandTranslator.CommandResponse :=
  { operations := .val [], imports := .val [] }

/-- A raw operation whose code key is missing. -/
def rawNoCode : CommandTranslator.RawOperation :=
  { description := some "make a box", type := some "create",
    affected_objects := some [] }

/-- A candidate batch holding only the operation with the missing code
key. -/
def respMissingCode : CommandTranslator.CommandResponse :=
  { operations := .val [rawNoCode], imports := .val [] }

end Fixtures

/-! ### C10 — empty batch passes validation, executor refuses it -/

/-- Helper: validate_and_parse on a response with no translator error,
an empty operations list and a present imports list. -/
theorem validate_and_parse_empty_ops (resp : CommandTranslator.CommandResponse)
    (l : List String) (herr : resp.error = none)
    (hops : resp.operations = .val []) (himp : resp.imports = .val l) :
    CommandTranslator.validate_and_parse resp =
      { valid := true, operations := [], imports := l,
        requires_confirmation := resp.requires_confirmation,
        estimated_complexity := resp.estimated_complexity } := by
  unfold CommandTranslator.validate_and_parse
  have hs : CommandTranslator.validate_structure resp = none := by
    unfold CommandTranslator.validate_structure
    rw [hops, himp]
  rw [herr, hs, hops, himp]
  simp

/-- C10: a candidate batch whose operations field is the empty list (and
whose imports field is a list) validates to valid=true with no
operations and no error, yet the executor refuses the command — with
the error Empty operations list when a document is loaded, and with the
error Document not loaded when none is (so the refusal message of the
claim only appears in the loaded state). -/
theorem C10_empty_batch_refused (resp : CommandTranslator.CommandResponse)
    (l : List String) (herr : resp.error = none)
    (hops : resp.operations = .val []) (himp : resp.imports = .val l) :
    (CommandTranslator.validate_and_parse resp).valid = true
    ∧ (CommandTranslator.validate_and_parse resp).operations = []
    ∧ (CommandTranslator.validate_and_parse resp).errors = []
    ∧ ∀ (sem : OpSem) (maxT : Nat) (fp : FileParserState) (dry_run : Bool),
        (OperationExecutor.execute_operations sem maxT fp
          (CommandTranslator.validate_and_parse resp) dry_run).1.success = false
        ∧ (fp.document.isSome = true →
            (OperationExecutor.execute_operations sem maxT fp
              (CommandTranslator.validate_and_parse resp) dry_run).1.error
            = some "Empty operations list")
        ∧ (fp.document = none →
            (OperationExecutor.execute_operations sem maxT fp
              (CommandTranslator.validate_and_parse resp) dry_run).1.error
            = some "Document not loaded") := by
  have hvp := validate_and_parse_empty_ops resp l herr hops himp
  rw [hvp]
  refine ⟨rfl, rfl, rfl, ?_⟩
  intro sem maxT fp dry_run
  unfold OperationExecutor.execute_operations
  cases hd : fp.document with
  | none => simp
  | some doc => simp

/-- C10 counterexample to the claim as stated: with no document loaded,
the executor refuses the validated empty batch with the error Document
not loaded, not Empty operations list. -/
theorem C10_counterexample :
    (CommandTranslator.validate_and_parse Fixtures.emptyResp).valid = true
    ∧ (OperationExecutor.execute_operations Fixtures.semTriv 30 Fixtures.fpNone
        (CommandTranslator.validate_and_parse Fixtures.emptyResp) true).1.success = false
    ∧ (OperationExecutor.execute_operations Fixtures.semTriv 30 Fixtures.fpNone
        (CommandTranslator.validate_and_parse Fixtures.emptyResp) true).1.error
      ≠ some "Empty operations list" := by
  refine ⟨rfl, rfl, ?_⟩
  decide

/-- C10 witness: the amended theorem at the concrete empty batch, with a
document loaded. -/
theorem C10_empty_batch_refused_witness :
    (CommandTranslator.validate_and_parse Fixtures.emptyResp).valid = true
    ∧ (OperationExecutor.execute_operations Fixtures.semTriv 30 Fixtures.fpEmptyDoc
        (CommandTranslator.validate_and_parse Fixtures.emptyResp) false).1.error
      = some "Empty operations list" := by
  obtain ⟨h1, _, _, h4⟩ :=
    C10_empty_batch_refused Fixtures.emptyResp [] rfl rfl rfl
  exact ⟨h1, (h4 Fixtures.semTriv 30 Fixtures.fpEmptyDoc false).2.1 rfl⟩

/-! ### C9 — a non-empty batch with no valid operation -/

namespace CommandTranslator

/-- Every rejection of a single operation carries at least one error
message. -/
theorem validate_operation_error_ne_nil {op : RawOperation} {es : List String}
    (h : validate_operation op = .error es) : es ≠ [] := by
  unfold validate_operation at h
  cases hc : op.code with
  | none =>
      rw [hc] at h
      simp only [missingFieldErrors, hc] at h
      injection h with h
      subst h
      simp
  | some sc =>
      cases hd : op.description with
      | none =>
          rw [hc, hd] at h
          simp only [missingFieldErrors, hc, hd] at h
          injection h with h
          subst h
          simp
      | some d =>
          cases ht : op.type with
          | none =>
              rw [hc, hd, ht] at h
              simp only [missingFieldErrors, hc, hd, ht] at h
              injection h with h
              subst h
              simp
          | some t =>
              cases ha : op.affected_objects with
              | none =>
                  rw [hc, hd, ht, ha] at h
                  simp only [missingFieldErrors, hc, hd, ht, ha] at h
                  injection h with h
                  subst h
                  simp
              | some ao =>
                  rw [hc, hd, ht, ha] at h
                  simp only [] at h
                  split at h
                  · rename_i hcv
                    injection h with h
                    subst h
                    revert hcv
                    unfold validate_code_ast
                    cases sc.parsed with
                    | none => intro hcv; simp
                    | some tree =>
                        simp only []
                        split
                        · rename_i hne
                          intro hcv
                          simpa using hne
                        · intro hcv
                          simp at hcv
                  · split at h
                    · injection h with h
                      subst h
                      simp
                    · cases hp : sc.parsed with
                      | some tree => rw [hp] at h; exact absurd h (by simp)
                      | none =>
                          rw [hp] at h
                          injection h with h
                          subst h
                          simp


/-- A non-empty batch in which every operation fails validation yields
valid=false with an empty operations list, and its errors list is
exactly the non-empty concatenation of the per-operation error
messages. -/
theorem validate_and_parse_all_rejected (resp : CommandResponse)
    (rawOps : List RawOperation) (l : List String)
    (herr : resp.error = none)
    (hops : resp.operations = .val rawOps)
    (himp : resp.imports = .val l)
    (hne : rawOps ≠ [])
    (hfail : ∀ op ∈ rawOps, ∃ es, validate_operation op = .error es) :
    (validate_and_parse resp).valid = false
    ∧ (validate_and_parse resp).operations = []
    ∧ (validate_and_parse resp).errors ≠ []
    ∧ (validate_and_parse resp).errors
      = ((rawOps.map validate_operation).map fun r =>
          match r with
          | .error es => es
          | .ok _ => []).flatten := by
  have hvalidated : (rawOps.map validate_operation).filterMap Except.toOption = [] := by
    rw [List.filterMap_eq_nil_iff]
    intro r hr
    rw [List.mem_map] at hr
    obtain ⟨op, hop, hrop⟩ := hr
    obtain ⟨es, hes⟩ := hfail op hop
    rw [← hrop, hes]
    rfl
  have herrs : ((rawOps.map validate_operation).map fun r =>
      match r with
      | .error es => es
      | .ok _ => []).flatten ≠ [] := by
    intro hnil
    rw [List.flatten_eq_nil_iff] at hnil
    obtain ⟨op, rest, hcons⟩ := List.exists_cons_of_ne_nil hne
    obtain ⟨es, hes⟩ := hfail op (by rw [hcons]; exact List.mem_cons_self op rest)
    have hmem : es ∈ ((rawOps.map validate_operation).map fun r =>
        match r with
        | .error es => es
        | .ok _ => []) := by
      rw [List.mem_map]
      exact ⟨validate_operation op,
        List.mem_map_of_mem _ (by rw [hcons]; exact List.mem_cons_self op rest),
        by rw [hes]⟩
    exact validate_operation_error_ne_nil hes (hnil es hmem)
  unfold validate_and_parse
  have hs : validate_structure resp = none := by
    unfold validate_structure
    rw [hops, himp]
  rw [herr, hs, hops, himp]
  simp only [hvalidated, List.isEmpty_nil, List.isEmpty_eq_true, hne]
  rw [if_pos (by simp), if_neg herrs]
  exact ⟨rfl, rfl, herrs, rfl⟩

/-- C9 (amended): a non-empty batch in which every operation fails
validation yields valid=false with an empty operations list, and its
errors list is exactly the concatenation of the per-operation error
messages — which is non-empty, so the fallback text No valid operations
found (which the source would use only with an empty collected list) is
not what the errors list holds. -/
theorem C9_no_valid_operations (resp : CommandResponse)
    (rawOps : List RawOperation) (l : List String)
    (herr : resp.error = none)
    (hops : resp.operations = .val rawOps)
    (himp : resp.imports = .val l)
    (hne : rawOps ≠ [])
    (hfail : ∀ op ∈ rawOps, ∃ es, validate_operation op = .error es) :
    (validate_and_parse resp).valid = false
    ∧ (validate_and_parse resp).operations = []
    ∧ (validate_and_parse resp).errors ≠ []
    ∧ (validate_and_parse resp).errors
      = ((rawOps.map validate_operation).map fun r =>
          match r with
          | .error es => es
          | .ok _ => []).flatten :=
  validate_and_parse_all_rejected resp rawOps l herr hops himp hne hfail

/-- C9 counterexample to the claim as stated: a batch with one operation
that is missing its code field comes back with the per-operation error
message, and its errors list does not include the text no valid
operations found (in either capitalisation the source uses). -/
theorem C9_counterexample :
    (validate_and_parse Fixtures.respMissingCode).valid = false
    ∧ (validate_and_parse Fixtures.respMissingCode).operations = []
    ∧ (validate_and_parse Fixtures.respMissingCode).errors
      = ["Operation missing required field: code"]
    ∧ ¬ "no valid operations found" ∈ (validate_and_parse Fixtures.respMissingCode).errors
    ∧ ¬ "No valid operations found" ∈ (validate_and_parse Fixtures.respMissingCode).errors := by
  refine ⟨rfl, rfl, rfl, ?_, ?_⟩ <;> decide

/-- C9 witness: the amended theorem at the concrete one-operation batch
with a missing code field. -/
theorem C9_no_valid_operations_witness :
    (validate_and_parse Fixtures.respMissingCode).valid = false
    ∧ (validate_and_parse Fixtures.respMissingCode).operations = []
    ∧ (validate_and_parse Fixtures.respMissingCode).errors ≠ [] := by
  obtain ⟨h1, h2, h3, _⟩ :=
    C9_no_valid_operations Fixtures.respMissingCode [Fixtures.rawNoCode] []
      rfl rfl rfl (by simp)
      (by
        intro op hop
        rw [List.mem_singleton] at hop
        subst hop
        exact ⟨["Operation missing required field: code"], rfl⟩)
  exact ⟨h1, h2, h3⟩

end CommandTranslator

/-! ### C5, C6 — rollback truncation and failure behaviour -/

namespace RollbackManager

/-- Two snapshots and stores for the rollback scenarios: storeA can load
the first snapshot only, storeNone fails every load. -/
def snapA : Snapshot := ⟨0, "s0", "snapshot_0001.FCStd", 0, 0⟩

def snapB : Snapshot := ⟨1, "s1", "snapshot_0002.FCStd", 1, 1⟩

def storeA : String → Option Doc :=
  fun p => if p = "snapshot_0001.FCStd" then some ⟨[]⟩ else none

def storeNone : String → Option Doc := fun _ => none

/-- A manager retaining both snapshots, with a document loaded. -/
def stAB : RollbackState := ⟨[snapA, snapB], Fixtures.fpEmptyDoc⟩

/-- A manager retaining one snapshot, with a document loaded. -/
def stA : RollbackState := ⟨[snapA], Fixtures.fpEmptyDoc⟩

/-- The element a successful take-up-to-index keeps last. -/
theorem getLast?_take_succ {α : Type} {l : List α} {n : Nat} {x : α}
    (h : l.get? n = some x) : (l.take (n + 1)).getLast? = some x := by
  have hn : n < l.length := by
    rw [List.get?_eq_getElem?] at h
    exact (List.getElem?_eq_some_iff.mp h).1
  rw [List.getLast?_eq_getElem?]
  have hlen : (l.take (n + 1)).length = n + 1 := by
    rw [List.length_take]
    omega
  rw [hlen]
  simp only [Nat.add_sub_cancel]
  rw [List.getElem?_take, if_pos (Nat.lt_succ_self n), ← List.get?_eq_getElem?]
  exact h

/-- A non-negative Python index that resolves points at its own value. -/
theorem pyIndex_nonneg {len : Nat} {i : Int} {k : Nat} (hpos : 0 ≤ i)
    (h : pyIndex len i = some k) : k = i.toNat ∧ i < len := by
  unfold pyIndex at h
  rw [if_neg (by omega : ¬ i < 0)] at h
  by_cases hc : (0:Int) ≤ i ∧ i < (len : Int)
  · rw [if_pos hc] at h
    exact ⟨(Option.some.inj h).symm, hc.2⟩
  · rw [if_neg hc] at h
    exact absurd h (by simp)

/-- The Python index -1 resolves to the last position. -/
theorem pyIndex_neg_one {len : Nat} {k : Nat}
    (h : pyIndex len (-1) = some k) : k = len - 1 ∧ 1 ≤ len := by
  unfold pyIndex at h
  rw [if_pos (by omega : (-1:Int) < 0)] at h
  by_cases hc : (0:Int) ≤ -1 + len ∧ -1 + (len:Int) < len
  · rw [if_pos hc] at h
    have := Option.some.inj h
    omega
  · rw [if_neg hc] at h
    exact absurd h (by simp)

/-- A pyGet hit at a non-negative index is the list element there. -/
theorem pyGet_nonneg_get {l : List Snapshot} {i : Int} {snap : Snapshot}
    (hpos : 0 ≤ i) (hget : pyGet l i = some snap) :
    l.get? i.toNat = some snap := by
  unfold pyGet at hget
  cases hidx : pyIndex l.length i with
  | none => rw [hidx] at hget; exact absurd hget (by simp)
  | some k =>
      rw [hidx] at hget
      simp only [Option.some_bind] at hget
      obtain ⟨hk, _⟩ := pyIndex_nonneg hpos hidx
      rw [← hk]
      exact hget

/-- A pyGet hit at the Python index -1 is the last list element. -/
theorem pyGet_neg_one_getLast {l : List Snapshot} {snap : Snapshot}
    (hget : pyGet l (-1) = some snap) : l.getLast? = some snap := by
  unfold pyGet at hget
  cases hidx : pyIndex l.length (-1) with
  | none => rw [hidx] at hget; exact absurd hget (by simp)
  | some k =>
      rw [hidx] at hget
      simp only [Option.some_bind] at hget
      obtain ⟨hk, hlen⟩ := pyIndex_neg_one hidx
      rw [List.getLast?_eq_getElem?, ← List.get?_eq_getElem?, ← show k = l.length - 1 from hk]
      exact hget

/-- The branch of rollback_to_snapshot with no snapshots retained. -/
theorem rollback_empty_eq (store : String → Option Doc) (st : RollbackState) (i : Int)
    (hemp : st.snapshots.isEmpty = true) :
    rollback_to_snapshot store st i = (false, st) := by
  unfold rollback_to_snapshot
  rw [if_pos hemp]

/-- The branch of rollback_to_snapshot with an out-of-range index
(IndexError, caught). -/
theorem rollback_badindex_eq (store : String → Option Doc) (st : RollbackState) (i : Int)
    (hemp : st.snapshots.isEmpty = false)
    (hget : pyGet st.snapshots i = none) :
    rollback_to_snapshot store st i = (false, st) := by
  unfold rollback_to_snapshot
  rw [hemp, hget]
  simp

/-- The branch of rollback_to_snapshot with a successful load. -/
theorem rollback_some_eq (store : String → Option Doc) (st : RollbackState) (i : Int)
    (snap : Snapshot) (d : Doc)
    (hemp : st.snapshots.isEmpty = false)
    (hget : pyGet st.snapshots i = some snap)
    (hstore : store snap.file_path = some d) :
    rollback_to_snapshot store st i =
      (true,
        ⟨if 0 ≤ i then st.snapshots.take (i.toNat + 1) else st.snapshots,
         { document := some d, file_path := some snap.file_path }⟩) := by
  unfold rollback_to_snapshot
  rw [hemp, hget]
  simp [hstore]

/-- The branch of rollback_to_snapshot with a failed load: the document
was already closed. -/
theorem rollback_load_fail_eq (store : String → Option Doc) (st : RollbackState) (i : Int)
    (snap : Snapshot)
    (hemp : st.snapshots.isEmpty = false)
    (hget : pyGet st.snapshots i = some snap)
    (hstore : store snap.file_path = none) :
    rollback_to_snapshot store st i =
      (false,
        ⟨st.snapshots,
         if st.fp.is_loaded then st.fp.close_document else st.fp⟩) := by
  unfold rollback_to_snapshot
  rw [hemp, hget]
  simp [hstore]

/-- C5 (amended): a successful rollback loads the chosen snapshot's
document; for a non-negative index the retained list is truncated to end
at the restored snapshot (which is then the last element); for a
negative index the list is left unchanged — so for index -1 the restored
snapshot is nonetheless the last element, while for other negative
indices (index -2 of rollback_last_operation included) the snapshots
newer than the restored one are retained. -/
theorem C5_rollback_truncation (store : String → Option Doc) (st : RollbackState)
    (i : Int) (hsucc : (rollback_to_snapshot store st i).1 = true) :
    (∃ snap, pyGet st.snapshots i = some snap
      ∧ (rollback_to_snapshot store st i).2.fp.file_path = some snap.file_path
      ∧ ∃ d, store snap.file_path = some d
        ∧ (rollback_to_snapshot store st i).2.fp.document = some d)
    ∧ (0 ≤ i →
        (rollback_to_snapshot store st i).2.snapshots
          = st.snapshots.take (i.toNat + 1)
        ∧ (rollback_to_snapshot store st i).2.snapshots.getLast?
          = st.snapshots.get? i.toNat)
    ∧ (i < 0 → (rollback_to_snapshot store st i).2.snapshots = st.snapshots)
    ∧ (i = -1 →
        (rollback_to_snapshot store st i).2.snapshots.getLast?
          = pyGet st.snapshots i) := by
  by_cases hemp : st.snapshots.isEmpty = true
  · rw [rollback_empty_eq store st i hemp] at hsucc
    exact absurd hsucc (by simp)
  · rw [Bool.not_eq_true] at hemp
    cases hget : pyGet st.snapshots i with
    | none =>
        rw [rollback_badindex_eq store st i hemp hget] at hsucc
        exact absurd hsucc (by simp)
    | some snap =>
        cases hstore : store snap.file_path with
        | none =>
            rw [rollback_load_fail_eq store st i snap hemp hget hstore] at hsucc
            exact absurd hsucc (by simp)
        | some d =>
            have heq := rollback_some_eq store st i snap d hemp hget hstore
            rw [heq]
            refine ⟨⟨snap, rfl, rfl, d, hstore, rfl⟩, ?_, ?_, ?_⟩
            · intro hpos
              rw [if_pos hpos]
              have hj := pyGet_nonneg_get hpos hget
              refine ⟨rfl, ?_⟩
              show (st.snapshots.take (i.toNat + 1)).getLast? = st.snapshots.get? i.toNat
              rw [hj]
              exact getLast?_take_succ hj
            · intro hneg
              rw [if_neg (by omega : ¬ (0:Int) ≤ i)]
            · intro hm1
              subst hm1
              rw [if_neg (by omega : ¬ (0:Int) ≤ -1)]
              show st.snapshots.getLast? = some snap
              exact pyGet_neg_one_getLast hget

/-- C5 counterexample to the claim as stated: rollback to the valid index
-2 (exactly the index rollback_last_operation uses) succeeds, yet the
snapshot newer than the restored one is not dropped and the restored
snapshot is not the last element of the retained list. -/
theorem C5_counterexample :
    (rollback_to_snapshot storeA stAB (-2)).1 = true
    ∧ pyGet stAB.snapshots (-2) = some snapA
    ∧ (rollback_to_snapshot storeA stAB (-2)).2.snapshots = [snapA, snapB]
    ∧ (rollback_to_snapshot storeA stAB (-2)).2.snapshots.getLast? ≠ some snapA
    ∧ (rollback_last_operation storeA stAB).1 = true
    ∧ (rollback_last_operation storeA stAB).2.snapshots = [snapA, snapB] := by
  decide

/-- C5 witness: the amended theorem at the concrete two-snapshot manager
with the non-negative index 0. -/
theorem C5_rollback_truncation_witness :
    (rollback_to_snapshot storeA stAB 0).2.snapshots = [snapA]
    ∧ (rollback_to_snapshot storeA stAB 0).2.snapshots.getLast? = some snapA := by
  obtain ⟨_, h2, _, _⟩ := C5_rollback_truncation storeA stAB 0 (by decide)
  obtain ⟨ha, hb⟩ := h2 (by decide)
  exact ⟨by rw [ha]; decide, by rw [hb]; decide⟩

/-- C6 (amended): a failed rollback never truncates the snapshot list;
the empty-list and bad-index failures leave the whole state unchanged;
but when loading the chosen snapshot fails the current document has
already been closed, so the document is no longer loaded — the claim
that all state is unchanged on every failure does not hold for the
load-failure path. -/
theorem C6_rollback_failure_state (store : String → Option Doc) (st : RollbackState)
    (i : Int) (hfail : (rollback_to_snapshot store st i).1 = false) :
    (rollback_to_snapshot store st i).2.snapshots = st.snapshots
    ∧ (st.snapshots = [] → (rollback_to_snapshot store st i).2 = st)
    ∧ (pyGet st.snapshots i = none → (rollback_to_snapshot store st i).2 = st)
    ∧ (∀ snap, pyGet st.snapshots i = some snap → store snap.file_path = none →
        (rollback_to_snapshot store st i).2.fp.document = none) := by
  by_cases hemp : st.snapshots.isEmpty = true
  · rw [rollback_empty_eq store st i hemp]
    refine ⟨rfl, fun _ => rfl, fun _ => rfl, fun snap hsnap _ => ?_⟩
    rw [List.isEmpty_eq_true] at hemp
    rw [hemp] at hsnap
    unfold pyGet pyIndex at hsnap
    simp at hsnap
  · rw [Bool.not_eq_true] at hemp
    cases hget : pyGet st.snapshots i with
    | none =>
        rw [rollback_badindex_eq store st i hemp hget]
        exact ⟨rfl, fun _ => rfl, fun _ => rfl, fun snap hsnap => absurd hsnap (by simp)⟩
    | some snap =>
        cases hstore : store snap.file_path with
        | none =>
            rw [rollback_load_fail_eq store st i snap hemp hget hstore]
            refine ⟨rfl, ?_, ?_, ?_⟩
            · intro h
              rw [h] at hemp
              exact absurd hemp (by simp)
            · intro h
              exact absurd h (by simp)
            · intro snap2 _ _
              by_cases hl : st.fp.is_loaded = true
              · rw [if_pos hl]
                rfl
              · rw [if_neg hl]
                unfold FileParserState.is_loaded at hl
                simpa using hl
        | some d =>
            rw [rollback_some_eq store st i snap d hemp hget hstore] at hfail
            exact absurd hfail (by simp)

/-- C6 counterexample to the claim as stated: a rollback that fails
because the snapshot load fails leaves the previously loaded document
closed — state has mutated. -/
theorem C6_counterexample :
    (rollback_to_snapshot storeNone stA 0).1 = false
    ∧ stA.fp.document ≠ none
    ∧ (rollback_to_snapshot storeNone stA 0).2.fp.document = none
    ∧ (rollback_to_snapshot storeNone stA 0).2.snapshots = stA.snapshots := by
  decide

/-- C6 witness: the amended theorem at a concrete failing rollback (an
out-of-range index), where the whole state is unchanged. -/
theorem C6_rollback_failure_state_witness :
    (rollback_to_snapshot storeNone stA 5).2 = stA
    ∧ (rollback_to_snapshot storeNone stA 5).2.snapshots = stA.snapshots := by
  obtain ⟨h1, _, h3, _⟩ := C6_rollback_failure_state storeNone stA 5 (by decide)
  exact ⟨h3 (by decide), h1⟩

end RollbackManager

/-! ### C7 — dry run -/

namespace Fixtures

/-- A syntactically valid create operation. -/
def createOp : CommandTranslator.ValidatedOperation :=
  { code := "box = doc.addObject()", description := "make a box", type := "create",
    affected_objects := [],
    ast_tree := .callE (.attrE (.nameE "doc") "addObject") [] }

/-- A structurally valid one-operation command. -/
def cmdOne : CommandTranslator.ValidatedCommand :=
  { valid := true, operations := [createOp] }

end Fixtures

namespace OperationExecutor

/-- A dry-run call leaves the file-parser state exactly as it was, on
every path (including the refusal paths). -/
theorem exec_dry_run_fixes_state (sem : OpSem) (maxT : Nat) (fp : FileParserState)
    (cmd : CommandTranslator.ValidatedCommand) :
    (execute_operations sem maxT fp cmd true).2 = fp := by
  unfold execute_operations
  by_cases hv : cmd.valid = true
  · simp only [hv]
    cases hd : fp.document with
    | none => simp
    | some doc =>
        by_cases ho : cmd.operations.isEmpty = true
        · simp [ho]
        · simp [ho]
  · simp [hv]

/-- C7 (amended): for a structurally valid command with a non-empty
operation list and a loaded document, a dry run always returns
success=true; a dry run never changes the file-parser state (the
document and its object count included), and iterating it any number of
times leaves the state fixed.  The claim's phrase for any document state
does not hold for success: without a loaded document (or with an empty
operation list) the dry run is refused with success=false. -/
theorem C7_dry_run_idempotent (sem : OpSem) (maxT : Nat) (fp : FileParserState)
    (cmd : CommandTranslator.ValidatedCommand) (doc : Doc)
    (hv : cmd.valid = true) (hd : fp.document = some doc)
    (hne : cmd.operations.isEmpty = false) :
    (execute_operations sem maxT fp cmd true).1.success = true
    ∧ (execute_operations sem maxT fp cmd true).2 = fp
    ∧ ∀ n : Nat, (fun s => (execute_operations sem maxT s cmd true).2)^[n] fp = fp := by
  refine ⟨?_, exec_dry_run_fixes_state sem maxT fp cmd, ?_⟩
  · unfold execute_operations
    simp [hv, hd, hne, dry_run_execution]
  · intro n
    exact Function.iterate_fixed (exec_dry_run_fixes_state sem maxT fp cmd) n

/-- C7 counterexample to the claim as stated: the same structurally
valid command, dry-run in a document state with no document loaded, is
refused with success=false. -/
theorem C7_counterexample :
    Fixtures.cmdOne.valid = true
    ∧ ¬ (Fixtures.cmdOne.operations.isEmpty = true)
    ∧ (execute_operations Fixtures.semTriv 30 Fixtures.fpNone
        Fixtures.cmdOne true).1.success = false := by
  exact ⟨rfl, by decide, rfl⟩

/-- C7 witness: the amended theorem at the concrete one-operation
command with a loaded empty document. -/
theorem C7_dry_run_idempotent_witness :
    (execute_operations Fixtures.semTriv 30 Fixtures.fpEmptyDoc
      Fixtures.cmdOne true).1.success = true
    ∧ (execute_operations Fixtures.semTriv 30 Fixtures.fpEmptyDoc
        Fixtures.cmdOne true).2 = Fixtures.fpEmptyDoc := by
  obtain ⟨h1, h2, _⟩ := C7_dry_run_idempotent Fixtures.semTriv 30 Fixtures.fpEmptyDoc
    Fixtures.cmdOne ⟨[]⟩ rfl rfl rfl
  exact ⟨h1, h2⟩

end OperationExecutor

/-! ### C1 — the structural guardrail is confirmation-proof -/

/-- A member of a filterMap image satisfying what the function
guarantees. -/
theorem exists_mem_filterMap_of {α β : Type} {f : α → Option β} {l : List α} {a : α}
    (ha : a ∈ l) (hne : f a ≠ none) (P : β → Prop) (hP : ∀ b, f a = some b → P b) :
    ∃ v ∈ l.filterMap f, P v := by
  cases hfa : f a with
  | none => exact absurd hfa hne
  | some b => exact ⟨b, List.mem_filterMap.mpr ⟨a, ha, hfa⟩, hP b hfa⟩

namespace SafetyValidator

open CommandTranslator (ValidatedOperation ValidatedCommand)

/-- The inferred target list of a delete operation is never empty (the
source falls back to the placeholder unknown). -/
theorem analyze_delete_operation_ne_nil (op : ValidatedOperation) :
    (analyze_delete_operation op).isEmpty = false := by
  unfold analyze_delete_operation
  dsimp only
  split
  · rename_i h
    simpa using h.1
  · split
    · rfl
    · rename_i h
      simpa using h

/-- A delete operation whose code trips the structural heuristic puts a
blocking no_delete_load_bearing violation into the load-bearing check's
output. -/
theorem checkLoadBearingDeletion_mem {ops : List ValidatedOperation}
    {op : ValidatedOperation}
    (hmem : op ∈ ops) (hdel : op.type = "delete")
    (hstruct : is_deleting_structural_elements op.code = true) :
    ∃ v ∈ checkLoadBearingDeletion ops,
      v.rule_name = "no_delete_load_bearing" ∧ v.blocked = true := by
  unfold checkLoadBearingDeletion
  have hf : op ∈ ops.filter fun o => o.type = "delete" :=
    List.mem_filter.mpr ⟨hmem, by simp [hdel]⟩
  have hcond : (¬ (analyze_delete_operation op).isEmpty = true)
      ∧ is_deleting_structural_elements op.code = true :=
    ⟨by simp [analyze_delete_operation_ne_nil], hstruct⟩
  refine exists_mem_filterMap_of hf ?_ _ ?_
  · rw [if_pos hcond]
    simp
  · intro b hb
    rw [if_pos hcond] at hb
    have hb := Option.some.inj hb
    rw [← hb]
    exact ⟨rfl, rfl⟩

/-- The shape of validate_command on a valid command. -/
theorem validate_command_valid_eq (rs : SafetyRules) (fp : FileParserState)
    (current : PermissionLevel) (cmd : ValidatedCommand) (confirmed : Bool)
    (hv : cmd.valid = true) :
    validate_command rs fp current cmd confirmed =
      (let violations :=
        checkOperationComplexity rs cmd.operations
        ++ checkPermissions rs current cmd.operations
        ++ checkDataSafety rs cmd.operations confirmed
        ++ (if fp.is_loaded then checkStructuralSafety rs fp cmd.operations else []);
       { safe := (violations.filter fun v => v.blocked).isEmpty
         violations := violations.filter fun v => v.blocked
         warnings := violations.filter fun v => ¬ v.blocked
         requires_confirmation := cmd.requires_confirmation && !confirmed }) := by
  unfold validate_command
  rw [if_neg (by simp [hv])]

/-- C1: a valid command holding a delete operation whose code targets a
structural element type (by the structural heuristic of the source) is
unsafe with a blocking no_delete_load_bearing violation, for every value
of confirmed — the confirmed flag does not appear in the structural
check at all — provided a document is loaded and the
no_delete_load_bearing rule is enabled. -/
theorem C1_structural_guardrail (rs : SafetyRules) (fp : FileParserState)
    (current : PermissionLevel) (cmd : ValidatedCommand) (confirmed : Bool)
    (op : ValidatedOperation)
    (hv : cmd.valid = true)
    (hload : fp.is_loaded = true)
    (hrule : rs.is_rule_enabled "no_delete_load_bearing" = true)
    (hmem : op ∈ cmd.operations)
    (hdel : op.type = "delete")
    (hstruct : is_deleting_structural_elements op.code = true) :
    (validate_command rs fp current cmd confirmed).safe = false
    ∧ ∃ v ∈ (validate_command rs fp current cmd confirmed).violations,
        v.rule_name = "no_delete_load_bearing" ∧ v.blocked = true := by
  obtain ⟨v, hvmem, hname, hblocked⟩ := checkLoadBearingDeletion_mem hmem hdel hstruct
  have hvstruct : v ∈ checkStructuralSafety rs fp cmd.operations := by
    unfold checkStructuralSafety
    rw [if_pos hrule]
    exact List.mem_append_left _ hvmem
  have hvall : v ∈
      checkOperationComplexity rs cmd.operations
      ++ checkPermissions rs current cmd.operations
      ++ checkDataSafety rs cmd.operations confirmed
      ++ (if fp.is_loaded then checkStructuralSafety rs fp cmd.operations else []) := by
    rw [if_pos hload]
    exact List.mem_append_right _ hvstruct
  have hvblock : v ∈
      (checkOperationComplexity rs cmd.operations
      ++ checkPermissions rs current cmd.operations
      ++ checkDataSafety rs cmd.operations confirmed
      ++ (if fp.is_loaded then checkStructuralSafety rs fp cmd.operations else [])).filter
        fun v => v.blocked :=
    List.mem_filter.mpr ⟨hvall, by rw [hblocked]⟩
  rw [validate_command_valid_eq rs fp current cmd confirmed hv]
  constructor
  · show (List.filter _ _).isEmpty = false
    rw [List.isEmpty_eq_false]
    exact List.ne_nil_of_mem hvblock
  · exact ⟨v, hvblock, hname, hblocked⟩

/-! ### C4 — the mass-delete guardrail -/

/-- check_mass_delete only reports invalid above the cap. -/
theorem check_mass_delete_false {rs : SafetyRules} {n : Nat} {p : Option String}
    (h : rs.check_mass_delete n = (false, p)) :
    n > rs.MAX_DELETE_OBJECTS := by
  unfold SafetyRules.check_mass_delete at h
  split at h
  · simp at h
  · split at h
    · rename_i h2
      exact h2
    · simp at h

/-- Every complexity-check violation is named
limit_operation_complexity. -/
theorem checkOperationComplexity_rule {rs : SafetyRules}
    {ops : List ValidatedOperation} {v : ValidationViolation}
    (h : v ∈ checkOperationComplexity rs ops) :
    v.rule_name = "limit_operation_complexity" := by
  unfold checkOperationComplexity at h
  split at h
  · simp at h
  · split at h
    · rw [List.mem_singleton] at h
      rw [h]
    · simp at h

/-- Every permission-check violation is named
require_permission_elevation. -/
theorem checkPermissions_rule {rs : SafetyRules} {current : PermissionLevel}
    {ops : List ValidatedOperation} {v : ValidationViolation}
    (h : v ∈ checkPermissions rs current ops) :
    v.rule_name = "require_permission_elevation" := by
  unfold checkPermissions at h
  split at h
  · simp at h
  · obtain ⟨op, _, hfop⟩ := List.mem_filterMap.mp h
    dsimp only at hfop
    split at hfop
    · rw [← Option.some.inj hfop]
    · simp at hfop

/-- Every load-bearing-check violation is the blocking
no_delete_load_bearing one. -/
theorem checkLoadBearingDeletion_rule {ops : List ValidatedOperation}
    {v : ValidationViolation}
    (h : v ∈ checkLoadBearingDeletion ops) :
    v.rule_name = "no_delete_load_bearing" := by
  unfold checkLoadBearingDeletion at h
  obtain ⟨op, _, hfop⟩ := List.mem_filterMap.mp h
  split at hfop
  · rw [← Option.some.inj hfop]
  · simp at hfop

/-- Every dependency-check violation is the non-blocking
no_break_dependencies warning. -/
theorem checkDependencyViolations_rule {fp : FileParserState}
    {ops : List ValidatedOperation} {v : ValidationViolation}
    (h : v ∈ checkDependencyViolations fp ops) :
    v.rule_name = "no_break_dependencies" := by
  unfold checkDependencyViolations at h
  dsimp only at h
  split at h
  · simp at h
  · obtain ⟨op, _, hin⟩ := List.mem_flatMap.mp h
    obtain ⟨obj_name, _, hfop⟩ := List.mem_filterMap.mp hin
    split at hfop
    · rw [← Option.some.inj hfop]
    · simp at hfop

/-- With the call confirmed, or with the summed delete count at or below
the cap, every data-safety violation is the confirmation one. -/
theorem checkDataSafety_no_mass {rs : SafetyRules} {ops : List ValidatedOperation}
    {confirmed : Bool} {v : ValidationViolation}
    (hc : confirmed = true
      ∨ ((ops.filter fun op => op.type = "delete").map
          fun op => op.affected_objects.length).sum ≤ rs.MAX_DELETE_OBJECTS)
    (h : v ∈ checkDataSafety rs ops confirmed) :
    v.rule_name = "require_delete_confirmation" := by
  unfold checkDataSafety at h
  dsimp only at h
  split at h
  · simp at h
  · rcases List.mem_append.mp h with h1 | h1
    · split at h1
      · rw [List.mem_singleton] at h1
        rw [h1]
      · simp at h1
    · exfalso
      split at h1
      · rename_i htot
        rcases hchk : rs.check_mass_delete
            ((List.filter (fun op => op.type = "delete") ops).map
              fun op => op.affected_objects.length).sum with ⟨b, o⟩
        rw [hchk] at h1
        cases b with
        | true => simp at h1
        | false =>
            cases o with
            | none => simp at h1
            | some msg =>
                split at h1
                · have hover := check_mass_delete_false hchk
                  rcases hc with hc | hc
                  · simp_all
                  · omega
                · rename_i hcontra
                  exact hcontra msg rfl
      · simp at h1

/-- C4: for a valid command whose delete operations affect N objects in
total, with the no_mass_delete rule enabled: if N exceeds the cap and
the call is not confirmed, the command is unsafe with a blocking
no_mass_delete violation; and with confirmed=true, or with N at or
below the cap, no no_mass_delete violation (blocking or warning) is
produced at all. -/
theorem C4_mass_delete_guardrail (rs : SafetyRules) (fp : FileParserState)
    (current : PermissionLevel) (cmd : ValidatedCommand)
    (hv : cmd.valid = true)
    (hrule : rs.is_rule_enabled "no_mass_delete" = true) :
    (((cmd.operations.filter fun op => op.type = "delete").map
        fun op => op.affected_objects.length).sum > rs.MAX_DELETE_OBJECTS →
      (validate_command rs fp current cmd false).safe = false
      ∧ ∃ v ∈ (validate_command rs fp current cmd false).violations,
          v.rule_name = "no_mass_delete" ∧ v.blocked = true)
    ∧ ∀ confirmed : Bool,
        (confirmed = true
          ∨ ((cmd.operations.filter fun op => op.type = "delete").map
              fun op => op.affected_objects.length).sum ≤ rs.MAX_DELETE_OBJECTS) →
        ∀ v, (v ∈ (validate_command rs fp current cmd confirmed).violations
            ∨ v ∈ (validate_command rs fp current cmd confirmed).warnings) →
          v.rule_name ≠ "no_mass_delete" := by
  constructor
  · intro hover
    have hN0 : 0 < ((cmd.operations.filter fun op => op.type = "delete").map
        fun op => op.affected_objects.length).sum :=
      lt_of_le_of_lt (Nat.zero_le _) hover
    have hdel : ((cmd.operations.filter fun op => op.type = "delete").isEmpty) = false := by
      rw [List.isEmpty_eq_false]
      intro hnil
      rw [hnil] at hN0
      simp at hN0
    obtain ⟨msg, hchk⟩ : ∃ msg,
        rs.check_mass_delete ((cmd.operations.filter fun op => op.type = "delete").map
          fun op => op.affected_objects.length).sum = (false, some msg) := by
      unfold SafetyRules.check_mass_delete
      rw [if_neg (by simp [hrule]), if_pos hover]
      exact ⟨_, rfl⟩
    have hmass : ∃ v ∈ checkDataSafety rs cmd.operations false,
        v.rule_name = "no_mass_delete" ∧ v.blocked = true := by
      unfold checkDataSafety
      dsimp only
      rw [hdel]
      simp only [Bool.false_eq_true, if_false]
      refine ⟨⟨"no_mass_delete", "error", msg, true⟩,
        List.mem_append_right _ ?_, rfl, rfl⟩
      rw [if_pos hN0, hchk]
      dsimp only
      simp
    obtain ⟨v, hvmem, hname, hblocked⟩ := hmass
    have hvall : v ∈
        checkOperationComplexity rs cmd.operations
        ++ checkPermissions rs current cmd.operations
        ++ checkDataSafety rs cmd.operations false
        ++ (if fp.is_loaded then checkStructuralSafety rs fp cmd.operations else []) := by
      refine List.mem_append_left _ ?_
      exact List.mem_append_right _ hvmem
    have hvblock : v ∈
        (checkOperationComplexity rs cmd.operations
        ++ checkPermissions rs current cmd.operations
        ++ checkDataSafety rs cmd.operations false
        ++ (if fp.is_loaded then checkStructuralSafety rs fp cmd.operations else [])).filter
          fun v => v.blocked :=
      List.mem_filter.mpr ⟨hvall, by rw [hblocked]⟩
    rw [validate_command_valid_eq rs fp current cmd false hv]
    constructor
    · show (List.filter _ _).isEmpty = false
      rw [List.isEmpty_eq_false]
      exact List.ne_nil_of_mem hvblock
    · exact ⟨v, hvblock, hname, hblocked⟩
  · intro confirmed hc v hv2
    rw [validate_command_valid_eq rs fp current cmd confirmed hv] at hv2
    have hvfull : v ∈
        checkOperationComplexity rs cmd.operations
        ++ checkPermissions rs current cmd.operations
        ++ checkDataSafety rs cmd.operations confirmed
        ++ (if fp.is_loaded then checkStructuralSafety rs fp cmd.operations else []) := by
      rcases hv2 with hv2 | hv2 <;> exact List.mem_of_mem_filter hv2
    rcases List.mem_append.mp hvfull with h1 | h1
    · rcases List.mem_append.mp h1 with h2 | h2
      · rcases List.mem_append.mp h2 with h3 | h3
        · rw [checkOperationComplexity_rule h3]
          decide
        · rw [checkPermissions_rule h3]
          decide
      · rw [checkDataSafety_no_mass hc h2]
        decide
    · by_cases hl : fp.is_loaded = true
      · rw [if_pos hl] at h1
        unfold checkStructuralSafety at h1
        rcases List.mem_append.mp h1 with h2 | h2
        · split at h2
          · rw [checkLoadBearingDeletion_rule h2]
            decide
          · simp at h2
        · split at h2
          · rw [checkDependencyViolations_rule h2]
            decide
          · simp at h2
      · rw [if_neg hl] at h1
        simp at h1

end SafetyValidator

namespace Fixtures

/-- A document holding one wall object. -/
def wallDoc : Doc := ⟨[⟨"Wall001", "Arch::Wall", []⟩]⟩

/-- A file parser with the wall document loaded. -/
def fpWall : FileParserState := { document := some wallDoc }

/-- A delete operation whose code trips the structural heuristic. -/
def delOp : CommandTranslator.ValidatedOperation :=
  { code := "doc.removeObject(\"Wall001\")", description := "delete the wall",
    type := "delete", affected_objects := ["Wall001"],
    ast_tree := .callE (.attrE (.nameE "doc") "removeObject") [.constE "Wall001"] }

/-- A valid command holding the structural delete. -/
def cmdDel : CommandTranslator.ValidatedCommand :=
  { valid := true, operations := [delOp] }

/-- A delete operation affecting eleven objects, over the default
mass-delete cap of ten. -/
def delOp11 : CommandTranslator.ValidatedOperation :=
  { code := "x = 1", description := "bulk delete", type := "delete",
    affected_objects := ["o1", "o2", "o3", "o4", "o5", "o6", "o7", "o8", "o9", "o10", "o11"],
    ast_tree := .otherE [] }

/-- A valid command holding the eleven-object delete. -/
def cmdDel11 : CommandTranslator.ValidatedCommand :=
  { valid := true, operations := [delOp11] }

end Fixtures

namespace SafetyValidator

/-- C1 witness: the guardrail theorem at the concrete wall-deleting
command with confirmed=true. -/
theorem C1_structural_guardrail_witness :
    (validate_command (SafetyRules.default_rules true) Fixtures.fpWall .DELETE
      Fixtures.cmdDel true).safe = false
    ∧ ∃ v ∈ (validate_command (SafetyRules.default_rules true) Fixtures.fpWall .DELETE
        Fixtures.cmdDel true).violations,
        v.rule_name = "no_delete_load_bearing" ∧ v.blocked = true :=
  C1_structural_guardrail (SafetyRules.default_rules true) Fixtures.fpWall .DELETE
    Fixtures.cmdDel true Fixtures.delOp rfl rfl (by decide)
    (List.mem_singleton_self _) rfl (by decide)

/-- C4 witness: the mass-delete theorem at the concrete eleven-object
delete with confirmed=false. -/
theorem C4_mass_delete_guardrail_witness :
    (validate_command (SafetyRules.default_rules true) Fixtures.fpNone .DELETE
      Fixtures.cmdDel11 false).safe = false
    ∧ ∃ v ∈ (validate_command (SafetyRules.default_rules true) Fixtures.fpNone .DELETE
        Fixtures.cmdDel11 false).violations,
        v.rule_name = "no_mass_delete" ∧ v.blocked = true :=
  (C4_mass_delete_guardrail (SafetyRules.default_rules true) Fixtures.fpNone .DELETE
    Fixtures.cmdDel11 rfl (by decide)).1 (by decide)

end SafetyValidator

/-! ### C2 — no forbidden capability passes validation -/

namespace CommandTranslator

/-- List.contains agrees with membership for strings. -/
theorem contains_iff_mem {l : List String} {a : String} :
    l.contains a = true ↔ a ∈ l :=
  List.elem_iff

/-- The claim-side predicate: the tree holds a call to a function of the
forbidden-function list, or an import (plain or from-import) of a module
of the forbidden-module list. -/
def forbiddenNode (n : PyNode) : Prop :=
  (∃ f args fn, n = PyNode.callE f args
      ∧ get_function_name (PyNode.callE f args) = some fn
      ∧ fn ∈ FORBIDDEN_FUNCTIONS)
  ∨ (∃ names m, n = PyNode.importE names ∧ m ∈ names ∧ m ∈ FORBIDDEN_MODULES)
  ∨ (∃ m names, n = PyNode.importFromE (some m) names ∧ m ∈ FORBIDDEN_MODULES)

/-- The claim-side predicate over a whole tree. -/
def mentionsForbidden (tree : PyNode) : Prop :=
  ∃ n ∈ tree.walk, forbiddenNode n

/-- A forbidden node contributes at least one error message. -/
theorem nodeErrors_ne_nil_of_forbidden {n : PyNode} (h : forbiddenNode n) :
    nodeErrors n ≠ [] := by
  rcases h with ⟨f, args, fn, hn, hg, hmem⟩ | ⟨names, m, hn, hmn, hmem⟩
    | ⟨m, names, hn, hmem⟩
  · subst hn
    unfold nodeErrors
    dsimp only
    rw [hg]
    dsimp only
    rw [if_pos (contains_iff_mem.mpr hmem)]
    simp
  · subst hn
    unfold nodeErrors
    dsimp only
    intro hnil
    have : (s!"Forbidden module import: {m}" : String) ∈
        names.filterMap fun m =>
          if FORBIDDEN_MODULES.contains m then
            some s!"Forbidden module import: {m}"
          else none :=
      List.mem_filterMap.mpr ⟨m, hmn, by rw [if_pos (contains_iff_mem.mpr hmem)]⟩
    rw [hnil] at this
    simp at this
  · subst hn
    unfold nodeErrors
    dsimp only
    rw [if_pos (contains_iff_mem.mpr hmem)]
    simp

/-- A node with an error message is forbidden. -/
theorem forbidden_of_nodeErrors_ne_nil {n : PyNode} (h : nodeErrors n ≠ []) :
    forbiddenNode n := by
  unfold forbiddenNode
  cases n with
  | nameE i => exact absurd rfl h
  | constE s => exact absurd rfl h
  | otherE cs => exact absurd rfl h
  | attrE v a => exact absurd rfl h
  | callE f args =>
      unfold nodeErrors at h
      dsimp only at h
      cases hg : get_function_name (.callE f args) with
      | none => rw [hg] at h; exact absurd rfl h
      | some fn =>
          rw [hg] at h
          dsimp only at h
          by_cases hc : FORBIDDEN_FUNCTIONS.contains fn = true
          · exact Or.inl ⟨f, args, fn, rfl, hg, contains_iff_mem.mp hc⟩
          · rw [if_neg hc] at h
            exact absurd rfl h
  | importE names =>
      unfold nodeErrors at h
      dsimp only at h
      obtain ⟨msg, hmsg⟩ := List.exists_mem_of_ne_nil _ h
      obtain ⟨m, hmn, hfm⟩ := List.mem_filterMap.mp hmsg
      by_cases hc : FORBIDDEN_MODULES.contains m = true
      · exact Or.inr (Or.inl ⟨names, m, rfl, hmn, contains_iff_mem.mp hc⟩)
      · rw [if_neg hc] at hfm
        exact absurd hfm (by simp)
  | importFromE mo names =>
      cases mo with
      | none => exact absurd rfl h
      | some m =>
          unfold nodeErrors at h
          dsimp only at h
          by_cases hc : FORBIDDEN_MODULES.contains m = true
          · exact Or.inr (Or.inr ⟨m, names, rfl, contains_iff_mem.mp hc⟩)
          · rw [if_neg hc] at h
            exact absurd rfl h

/-- A tree mentioning a forbidden capability fails the AST check. -/
theorem validate_code_ast_forbidden {tree : PyNode} (h : mentionsForbidden tree) :
    (validate_code_ast (some tree)).valid = false
    ∧ (validate_code_ast (some tree)).errors ≠ [] := by
  obtain ⟨n, hmem, hn⟩ := h
  have hne := nodeErrors_ne_nil_of_forbidden hn
  have herrs : (tree.walk.map nodeErrors).flatten ≠ [] := by
    intro hnil
    rw [List.flatten_eq_nil_iff] at hnil
    exact hne (hnil _ (List.mem_map_of_mem _ hmem))
  unfold validate_code_ast
  dsimp only
  rw [if_pos herrs]
  exact ⟨rfl, herrs⟩

/-- A tree mentioning no forbidden capability passes the AST check, with
its unknown-import and dunder messages as warnings. -/
theorem validate_code_ast_clean {tree : PyNode} (h : ¬ mentionsForbidden tree) :
    validate_code_ast (some tree) =
      { valid := true, warnings := (tree.walk.map nodeWarnings).flatten } := by
  have herrs : (tree.walk.map nodeErrors).flatten = [] := by
    by_contra hne
    rw [List.flatten_eq_nil_iff] at hne
    push_neg at hne
    obtain ⟨es, hes, hne2⟩ := hne
    obtain ⟨n, hn, hmap⟩ := List.mem_map.mp hes
    rw [← hmap] at hne2
    exact h ⟨n, hn, forbidden_of_nodeErrors_ne_nil hne2⟩
  unfold validate_code_ast
  dsimp only
  rw [if_neg (by simp [herrs])]

/-- Inversion of a successful single-operation validation: the stored
tree passed the AST check. -/
theorem validate_operation_ok_inv {op : RawOperation} {vop : ValidatedOperation}
    (h : validate_operation op = .ok vop) :
    (validate_code_ast (some vop.ast_tree)).valid = true := by
  unfold validate_operation at h
  cases hc : op.code with
  | none => rw [hc] at h; simp at h
  | some sc =>
      cases hd : op.description with
      | none => rw [hc, hd] at h; simp at h
      | some d =>
          cases ht : op.type with
          | none => rw [hc, hd, ht] at h; simp at h
          | some t =>
              cases ha : op.affected_objects with
              | none => rw [hc, hd, ht, ha] at h; simp at h
              | some ao =>
                  rw [hc, hd, ht, ha] at h
                  dsimp only at h
                  split at h
                  · simp at h
                  · split at h
                    · simp at h
                    · rename_i hcv _
                      cases hp : sc.parsed with
                      | none => rw [hp] at h; simp at h
                      | some tree =>
                          rw [hp] at h
                          have hvop := Except.ok.inj h
                          rw [← hvop]
                          rw [hp] at hcv
                          simpa using hcv

/-- A raw operation whose parsed code mentions a forbidden capability is
rejected with a non-empty error list. -/
theorem validate_operation_forbidden {op : RawOperation} {sc : SourceCode}
    {tree : PyNode}
    (hcode : op.code = some sc) (hparse : sc.parsed = some tree)
    (hf : mentionsForbidden tree) :
    ∃ es, validate_operation op = .error es ∧ es ≠ [] := by
  have hmain : ∃ es, validate_operation op = .error es := by
    cases hok : validate_operation op with
    | error es => exact ⟨es, rfl⟩
    | ok vop =>
        exfalso
        have hvalid := validate_operation_ok_inv hok
        unfold validate_operation at hok
        rw [hcode] at hok
        cases hd : op.description with
        | none => rw [hd] at hok; simp at hok
        | some d =>
            cases ht : op.type with
            | none => rw [hd, ht] at hok; simp at hok
            | some t =>
                cases ha : op.affected_objects with
                | none => rw [hd, ht, ha] at hok; simp at hok
                | some ao =>
                    rw [hd, ht, ha] at hok
                    dsimp only at hok
                    split at hok
                    · simp at hok
                    · rename_i hcv
                      rw [hparse] at hcv
                      exact hcv (validate_code_ast_forbidden hf).1
  obtain ⟨es, hes⟩ := hmain
  exact ⟨es, hes, validate_operation_error_ne_nil hes⟩

/-- No operation surviving batch validation carries a tree that mentions
a forbidden capability. -/
theorem validate_and_parse_no_forbidden (resp : CommandResponse)
    {vop : ValidatedOperation}
    (hmem : vop ∈ (validate_and_parse resp).operations) :
    ¬ mentionsForbidden vop.ast_tree := by
  intro hf
  unfold validate_and_parse at hmem
  split at hmem
  · simp at hmem
  · split at hmem
    · simp at hmem
    · split at hmem
      · dsimp only at hmem
        split at hmem
        · simp at hmem
        · obtain ⟨r, hrmem, hr⟩ := List.mem_filterMap.mp hmem
          obtain ⟨op, hopmem, hop⟩ := List.mem_map.mp hrmem
          cases r with
          | error es => simp [Except.toOption] at hr
          | ok v =>
              have hv : v = vop := by simpa [Except.toOption] using hr
              subst hv
              have h1 := validate_operation_ok_inv hop
              have h2 := (validate_code_ast_forbidden hf).1
              rw [h1] at h2
              exact absurd h2 (by simp)
      · simp at hmem

/-- An import of a module that is neither forbidden nor allowed only
contributes a warning: the operation (with its other fields in order)
still validates, and the unrecognized-module message is among the
AST-check warnings. -/
theorem validate_operation_unknown_import {op : RawOperation} {sc : SourceCode}
    {tree : PyNode} {d t : String} {ao : List String} {names : List String}
    {m : String}
    (hcode : op.code = some sc) (hdesc : op.description = some d)
    (htype : op.type = some t) (haff : op.affected_objects = some ao)
    (hparse : sc.parsed = some tree)
    (hnf : ¬ mentionsForbidden tree)
    (htv : ["create", "modify", "delete", "query"].contains t = true)
    (himp : PyNode.importE names ∈ tree.walk) (hm : m ∈ names)
    (hmf : m ∉ FORBIDDEN_MODULES) (hma : m ∉ ALLOWED_MODULES) :
    validate_operation op = .ok ⟨sc.text, d, t, ao, tree⟩
    ∧ (s!"Unrecognized module: {m}" : String)
      ∈ (validate_code_ast (some tree)).warnings := by
  constructor
  · unfold validate_operation
    rw [hcode, hdesc, htype, haff]
    dsimp only
    rw [hparse, validate_code_ast_clean hnf]
    dsimp only
    rw [if_neg (by simp), if_neg (fun hc => hc htv)]
  · rw [validate_code_ast_clean hnf]
    show _ ∈ (tree.walk.map nodeWarnings).flatten
    rw [List.mem_flatten]
    refine ⟨nodeWarnings (.importE names), List.mem_map_of_mem _ himp, ?_⟩
    unfold nodeWarnings
    dsimp only
    refine List.mem_filterMap.mpr ⟨m, hm, ?_⟩
    rw [if_pos ⟨fun hc => hmf (contains_iff_mem.mp hc),
      fun hc => hma (contains_iff_mem.mp hc)⟩]

end CommandTranslator

/-- A command with valid=false is refused by the executor without
executing anything: a failure result naming the validation failure, the
state untouched. -/
theorem execute_operations_refuses_invalid (sem : OpSem) (maxT : Nat)
    (fp : FileParserState) (cmd : CommandTranslator.ValidatedCommand) (dry_run : Bool)
    (h : cmd.valid = false) :
    (OperationExecutor.execute_operations sem maxT fp cmd dry_run).1.success = false
    ∧ (OperationExecutor.execute_operations sem maxT fp cmd dry_run).1.error
      = some "Command validation failed"
    ∧ (OperationExecutor.execute_operations sem maxT fp cmd dry_run).2 = fp := by
  unfold OperationExecutor.execute_operations
  rw [if_pos (by simp [h])]
  exact ⟨rfl, rfl, rfl⟩

/-- C2: a candidate operation whose code calls a function of the
forbidden-function list or imports a module of the forbidden-module
list fails the AST check and is rejected with an error; no surviving
operation of a validated batch mentions a forbidden capability; a
non-empty batch in which every operation is rejected gets valid=false;
an import of a module in neither list leaves the operation valid and
only contributes an unrecognized-module warning; and the executor
refuses any command with valid=false outright, leaving the state
untouched. -/
theorem C2_no_forbidden_capability :
    (∀ tree : PyNode, CommandTranslator.mentionsForbidden tree →
        (CommandTranslator.validate_code_ast (some tree)).valid = false)
    ∧ (∀ (op : CommandTranslator.RawOperation) (sc : CommandTranslator.SourceCode)
          (tree : PyNode),
        op.code = some sc → sc.parsed = some tree →
        CommandTranslator.mentionsForbidden tree →
        ∃ es, CommandTranslator.validate_operation op = .error es ∧ es ≠ [])
    ∧ (∀ (resp : CommandTranslator.CommandResponse)
          (vop : CommandTranslator.ValidatedOperation),
        vop ∈ (CommandTranslator.validate_and_parse resp).operations →
        ¬ CommandTranslator.mentionsForbidden vop.ast_tree)
    ∧ (∀ (resp : CommandTranslator.CommandResponse)
          (rawOps : List CommandTranslator.RawOperation) (l : List String),
        resp.error = none → resp.operations = .val rawOps → resp.imports = .val l →
        rawOps ≠ [] →
        (∀ op ∈ rawOps, ∃ es, CommandTranslator.validate_operation op = .error es) →
        (CommandTranslator.validate_and_parse resp).valid = false)
    ∧ (∀ (op : CommandTranslator.RawOperation) (sc : CommandTranslator.SourceCode)
          (tree : PyNode) (d t : String) (ao names : List String) (m : String),
        op.code = some sc → op.description = some d → op.type = some t →
        op.affected_objects = some ao → sc.parsed = some tree →
        ¬ CommandTranslator.mentionsForbidden tree →
        ["create", "modify", "delete", "query"].contains t = true →
        PyNode.importE names ∈ tree.walk → m ∈ names →
        m ∉ CommandTranslator.FORBIDDEN_MODULES →
        m ∉ CommandTranslator.ALLOWED_MODULES →
        CommandTranslator.validate_operation op = .ok ⟨sc.text, d, t, ao, tree⟩
        ∧ (s!"Unrecognized module: {m}" : String)
          ∈ (CommandTranslator.validate_code_ast (some tree)).warnings)
    ∧ (∀ (sem : OpSem) (maxT : Nat) (fp : FileParserState)
          (cmd : CommandTranslator.ValidatedCommand) (dry_run : Bool),
        cmd.valid = false →
        (OperationExecutor.execute_operations sem maxT fp cmd dry_run).1.success = false
        ∧ (OperationExecutor.execute_operations sem maxT fp cmd dry_run).1.error
          = some "Command validation failed"
        ∧ (OperationExecutor.execute_operations sem maxT fp cmd dry_run).2 = fp) :=
  ⟨fun _ h => (CommandTranslator.validate_code_ast_forbidden h).1,
   fun _ _ _ hc hp hf => CommandTranslator.validate_operation_forbidden hc hp hf,
   fun resp _ h => CommandTranslator.validate_and_parse_no_forbidden resp h,
   fun resp rawOps l he ho hi hn hf =>
     (CommandTranslator.validate_and_parse_all_rejected resp rawOps l he ho hi hn hf).1,
   fun _ _ _ _ _ _ _ _ hc hd ht ha hp hnf htv himp hm hmf hma =>
     CommandTranslator.validate_operation_unknown_import hc hd ht ha hp hnf htv himp hm hmf hma,
   fun sem maxT fp cmd dry_run h =>
     execute_operations_refuses_invalid sem maxT fp cmd dry_run h⟩

/-! ### C8 — per-operation failure capture and the timeout path -/

namespace OperationExecutor

open CommandTranslator (ValidatedOperation ValidatedCommand)

/-- Wall-clock time the attempts on a list of operations consume. -/
def opsDuration (sem : OpSem) (ops : List ValidatedOperation) : Nat :=
  (ops.map fun op => sem.duration op.code).sum

/-- The document after attempting a list of operations in order. -/
def docAfter (sem : OpSem) (doc : Doc) (ops : List ValidatedOperation) : Doc :=
  ops.foldl (fun d op => (execute_single_operation sem op d).2) doc

/-- The per-operation results of attempting every operation in order. -/
def resultsList (sem : OpSem) (doc : Doc) : List ValidatedOperation → List OpResult
  | [] => []
  | op :: rest =>
      let step := execute_single_operation sem op doc
      step.1 :: resultsList sem step.2 rest

/-- How many of the attempts succeed. -/
def successCount (sem : OpSem) (doc : Doc) : List ValidatedOperation → Nat
  | [] => 0
  | op :: rest =>
      let step := execute_single_operation sem op doc
      (if step.1.success then 1 else 0) + successCount sem step.2 rest

theorem opsDuration_nil (sem : OpSem) : opsDuration sem [] = 0 := rfl

theorem opsDuration_cons (sem : OpSem) (op : ValidatedOperation)
    (rest : List ValidatedOperation) :
    opsDuration sem (op :: rest) = sem.duration op.code + opsDuration sem rest := by
  unfold opsDuration
  simp

/-- When no elapsed reading exceeds the budget, the loop attempts every
operation and completes. -/
theorem runLive_no_timeout (sem : OpSem) (maxT : Nat)
    (ops : List ValidatedOperation) (elapsed cnt : Nat) (doc : Doc)
    (h : ∀ k, k < ops.length → elapsed + opsDuration sem (ops.take k) ≤ maxT) :
    runLive sem maxT ops elapsed cnt doc =
      .completed (resultsList sem doc ops) (cnt + successCount sem doc ops)
        (docAfter sem doc ops) (elapsed + opsDuration sem ops) := by
  induction ops generalizing elapsed cnt doc with
  | nil => simp [runLive, resultsList, successCount, docAfter, opsDuration]
  | cons op rest ih =>
      have h0 : elapsed ≤ maxT := by
        simpa [opsDuration] using h 0 (by simp)
      have hk : ∀ k, k < rest.length →
          (elapsed + sem.duration op.code) + opsDuration sem (rest.take k) ≤ maxT := by
        intro k hklt
        have := h (k + 1) (by simp; omega)
        rw [List.take_succ_cons, opsDuration_cons] at this
        omega
      unfold runLive
      rw [if_neg (by omega)]
      dsimp only
      rw [ih _ _ _ hk]
      by_cases hs : (execute_single_operation sem op doc).1.success = true
      · simp [resultsList, successCount, docAfter, opsDuration_cons, hs]
        omega
      · simp only [Bool.not_eq_true] at hs
        simp [resultsList, successCount, docAfter, opsDuration_cons, hs]
        omega

/-- The results of attempting every operation: one per operation. -/
theorem resultsList_length (sem : OpSem) (doc : Doc) (ops : List ValidatedOperation) :
    (resultsList sem doc ops).length = ops.length := by
  induction ops generalizing doc with
  | nil => rfl
  | cons op rest ih => simp [resultsList, ih]

/-- The result at position i is the single-operation result of the
operation at position i, run against the document the earlier
operations left behind. -/
theorem resultsList_get (sem : OpSem) (doc : Doc) (ops : List ValidatedOperation)
    (i : Nat) (hi : i < ops.length) :
    (resultsList sem doc ops).get? i =
      some (execute_single_operation sem (ops.get ⟨i, hi⟩)
        (docAfter sem doc (ops.take i))).1 := by
  induction ops generalizing doc i with
  | nil => simp at hi
  | cons op rest ih =>
      cases i with
      | zero => simp [resultsList, docAfter]
      | succ n =>
          have hn : n < rest.length := by simpa using hi
          simp only [resultsList, List.get?_cons_succ, List.take_succ_cons]
          rw [ih _ n hn]
          simp [docAfter]

/-- When the elapsed reading first exceeds the budget before operation
k, the loop aborts there: the operations up to k were attempted (their
document effects and success count retained), the rest were not. -/
theorem runLive_timeout (sem : OpSem) (maxT : Nat)
    (ops : List ValidatedOperation) (elapsed cnt : Nat) (doc : Doc) (k : Nat)
    (hk : k < ops.length)
    (hover : elapsed + opsDuration sem (ops.take k) > maxT)
    (hmin : ∀ j, j < k → elapsed + opsDuration sem (ops.take j) ≤ maxT) :
    runLive sem maxT ops elapsed cnt doc =
      .timedOut (cnt + successCount sem doc (ops.take k))
        (elapsed + opsDuration sem (ops.take k))
        (docAfter sem doc (ops.take k)) := by
  induction ops generalizing elapsed cnt doc k with
  | nil => simp at hk
  | cons op rest ih =>
      cases k with
      | zero =>
          rw [List.take_zero, opsDuration_nil] at hover
          unfold runLive
          rw [if_pos (by omega)]
          simp [successCount, docAfter, opsDuration_nil]
      | succ n =>
          have h0 : elapsed ≤ maxT := by
            simpa [opsDuration] using hmin 0 (by omega)
          have hn : n < rest.length := by simpa using hk
          have hover2 : (elapsed + sem.duration op.code)
              + opsDuration sem (rest.take n) > maxT := by
            rw [List.take_succ_cons, opsDuration_cons] at hover
            omega
          have hmin2 : ∀ j, j < n →
              (elapsed + sem.duration op.code) + opsDuration sem (rest.take j) ≤ maxT := by
            intro j hj
            have := hmin (j + 1) (by omega)
            rw [List.take_succ_cons, opsDuration_cons] at this
            omega
          unfold runLive
          rw [if_neg (by omega)]
          dsimp only
          rw [ih _ _ _ n hn hover2 hmin2]
          by_cases hs : (execute_single_operation sem op doc).1.success = true
          · simp [List.take_succ_cons, successCount, docAfter, opsDuration_cons, hs]
            omega
          · simp only [Bool.not_eq_true] at hs
            simp [List.take_succ_cons, successCount, docAfter, opsDuration_cons, hs]
            omega

/-- The timeout error text mentions the timeout. -/
theorem timeout_msg_contains (e m : Nat) :
    strContains s!"Execution timeout after {e}s (max: {m}s)" "timeout" = true := by
  unfold strContains
  rw [decide_eq_true_eq]
  have h1 : "timeout".data <:+: "Execution timeout after ".data := by decide
  refine h1.trans (List.IsPrefix.isInfix ?_)
  show ("Execution timeout after ".data) <+: _
  simp only [String.data_append, List.append_assoc]
  exact List.prefix_append _ _

/-- C8: in a live run, an exception during one operation is caught and
becomes that single operation's failure result, and the remaining
operations still execute: when no elapsed check exceeds the budget, the
batch result carries one entry per operation, each exactly the
single-operation result (success or converted failure) of the operation
at that position against the document the earlier operations left.
Only the between-operations timeout check aborts the remainder: when
the elapsed reading first exceeds the budget before operation k, the
result has success=false, an error message mentioning the timeout, the
executed count of the successes among the attempted prefix, and the
document effects of that prefix preserved. -/
theorem C8_failure_semantics (sem : OpSem) (maxT : Nat) (fp : FileParserState)
    (cmd : ValidatedCommand) (doc0 : Doc)
    (hv : cmd.valid = true) (hdoc : fp.document = some doc0)
    (hne : cmd.operations.isEmpty = false) :
    ((∀ k, k < cmd.operations.length →
        opsDuration sem (cmd.operations.take k) ≤ maxT) →
      ∃ rs, (execute_operations sem maxT fp cmd false).1.data.results = some rs
        ∧ rs.length = cmd.operations.length
        ∧ ∀ (i : Nat) (hi : i < cmd.operations.length),
            rs.get? i = some (execute_single_operation sem (cmd.operations.get ⟨i, hi⟩)
              (docAfter sem doc0 (cmd.operations.take i))).1)
    ∧ (∀ k, k < cmd.operations.length →
        opsDuration sem (cmd.operations.take k) > maxT →
        (∀ j, j < k → opsDuration sem (cmd.operations.take j) ≤ maxT) →
        (execute_operations sem maxT fp cmd false).1.success = false
        ∧ (∃ s, (execute_operations sem maxT fp cmd false).1.error = some s
            ∧ strContains s "timeout" = true)
        ∧ (execute_operations sem maxT fp cmd false).1.data.executed_count
          = some (successCount sem doc0 (cmd.operations.take k))
        ∧ (execute_operations sem maxT fp cmd false).2.document
          = some (docAfter sem doc0 (cmd.operations.take k))) := by
  constructor
  · intro hno
    have hrun := runLive_no_timeout sem maxT cmd.operations 0 0 doc0
      (by intro k hk; simpa using hno k hk)
    refine ⟨resultsList sem doc0 cmd.operations, ?_,
      resultsList_length sem doc0 cmd.operations,
      fun i hi => resultsList_get sem doc0 cmd.operations i hi⟩
    unfold execute_operations
    rw [if_neg (by simp [hv]), hdoc]
    dsimp only
    simp only [hne, Bool.false_eq_true, if_false]
    rw [hrun]
  · intro k hk hover hmin
    have hrun := runLive_timeout sem maxT cmd.operations 0 0 doc0 k hk
      (by simpa using hover) (by intro j hj; simpa using hmin j hj)
    have hred : execute_operations sem maxT fp cmd false =
        ({ success := false
           message := s!"Execution timeout after {0 + successCount sem doc0 (cmd.operations.take k)} operations"
           error := some s!"Execution timeout after {0 + opsDuration sem (cmd.operations.take k)}s (max: {maxT}s)"
           data := { executed_count := some (0 + successCount sem doc0 (cmd.operations.take k)) } },
         { fp with document := some (docAfter sem doc0 (cmd.operations.take k)) }) := by
      unfold execute_operations
      rw [if_neg (by simp [hv]), hdoc]
      dsimp only
      simp only [hne, Bool.false_eq_true, if_false]
      rw [hrun]
    rw [hred]
    refine ⟨rfl, ⟨_, rfl, timeout_msg_contains _ _⟩, ?_, rfl⟩
    simp

end OperationExecutor

namespace Fixtures

/-- An external semantics where the code boom() raises and everything
else succeeds, instantly. -/
def semFail : OpSem :=
  { run := fun code d =>
      if code = "boom()" then (some "RuntimeError: boom", d, []) else (none, d, [])
    duration := fun _ => 0
    recompute := id }

/-- An external semantics where every operation takes 40 time units. -/
def semSlow : OpSem :=
  { run := fun _ d => (none, d, [])
    duration := fun _ => 40
    recompute := id }

/-- An operation whose execution raises. -/
def opBoom : CommandTranslator.ValidatedOperation :=
  { code := "boom()", description := "raises", type := "modify",
    affected_objects := [], ast_tree := .callE (.nameE "boom") [] }

/-- A valid two-operation command whose first operation raises. -/
def cmdTwo : CommandTranslator.ValidatedCommand :=
  { valid := true, operations := [opBoom, createOp] }

end Fixtures

namespace OperationExecutor

/-- C8 witness: the theorem at the concrete two-operation batch — once
with the raising semantics and no timeout (both operations get their
results), once with the slow semantics where the budget of 30 is
exceeded before the second operation. -/
theorem C8_failure_semantics_witness :
    (∃ rs, (execute_operations Fixtures.semFail 30 Fixtures.fpEmptyDoc
        Fixtures.cmdTwo false).1.data.results = some rs
      ∧ rs.length = Fixtures.cmdTwo.operations.length
      ∧ ∀ (i : Nat) (hi : i < Fixtures.cmdTwo.operations.length),
          rs.get? i = some (execute_single_operation Fixtures.semFail
            (Fixtures.cmdTwo.operations.get ⟨i, hi⟩)
            (docAfter Fixtures.semFail ⟨[]⟩ (Fixtures.cmdTwo.operations.take i))).1)
    ∧ ((execute_operations Fixtures.semSlow 30 Fixtures.fpEmptyDoc
        Fixtures.cmdTwo false).1.success = false
      ∧ (∃ s, (execute_operations Fixtures.semSlow 30 Fixtures.fpEmptyDoc
          Fixtures.cmdTwo false).1.error = some s
          ∧ strContains s "timeout" = true)
      ∧ (execute_operations Fixtures.semSlow 30 Fixtures.fpEmptyDoc
          Fixtures.cmdTwo false).1.data.executed_count
        = some (successCount Fixtures.semSlow ⟨[]⟩ (Fixtures.cmdTwo.operations.take 1))
      ∧ (execute_operations Fixtures.semSlow 30 Fixtures.fpEmptyDoc
          Fixtures.cmdTwo false).2.document
        = some (docAfter Fixtures.semSlow ⟨[]⟩ (Fixtures.cmdTwo.operations.take 1))) := by
  constructor
  · exact (C8_failure_semantics Fixtures.semFail 30 Fixtures.fpEmptyDoc
      Fixtures.cmdTwo ⟨[]⟩ rfl rfl rfl).1
      (by
        intro k hk
        rw [show Fixtures.cmdTwo.operations.length = 2 from rfl] at hk
        interval_cases k <;> decide)
  · exact (C8_failure_semantics Fixtures.semSlow 30 Fixtures.fpEmptyDoc
      Fixtures.cmdTwo ⟨[]⟩ rfl rfl rfl).2 1 (by decide) (by decide)
      (by intro j hj; interval_cases j; decide)

end OperationExecutor

end FreeCADPipeline
